import Mathlib

/-!
Canvas rendering engine of tis-104-real (`src/canvas.c`) and the character
renderer of its PC simulation (`src/main_pc.c`).

A shallow embedding of the canvas drawing operations.  The display is an
external collaborator and is represented by the log of the calls made on it.
Machine integers are natural numbers; every conversion to `uint8_t` or
`uint16_t` is an explicit reduction modulo `2^8` or `2^16`.  Loops whose
counter is a machine integer carry a fuel argument: `none` (or
`Outcome.out_of_fuel`) means that the loop did not finish within the budget.
-/

set_option autoImplicit false
set_option maxRecDepth 100000

/-! ## Machine integers -/

/-- Conversion of a C `int` value to `uint8_t`. -/
def u8 (i : Int) : Nat := (i % 256).toNat

/-! ## The display -/

/-- One call made on the display. -/
inductive DisplayOp where
  | set_window (x y w h : Nat)
  | write_pixel (color : Nat)
  deriving DecidableEq, Repr

/-- Modelled from the spec: `display.h` and the display driver are not part of
the sources.  The display is a pixel grid of fixed `width` and `height`
(`get_width`, `get_height`) that receives `set_window` and `write_pixel`
calls; the model records the calls in order, as a recording display does. -/
structure display_t where
  width : Nat
  height : Nat
  log : List DisplayOp

/-- Modelled from the spec: `display_set_window` of the missing display
driver, recorded in the log. -/
def display_set_window (display : display_t) (x y w h : Nat) : display_t :=
  { display with log := display.log ++ [DisplayOp.set_window x y w h] }

/-- Modelled from the spec: `display_write_pixel` of the missing display
driver, recorded in the log. -/
def display_write_pixel (display : display_t) (color : Nat) : display_t :=
  { display with log := display.log ++ [DisplayOp.write_pixel color] }

/-- Modelled from the spec: `display_get_width` of the missing display
driver. -/
def display_get_width (display : display_t) : Nat := display.width

/-- Modelled from the spec: `display_get_height` of the missing display
driver. -/
def display_get_height (display : display_t) : Nat := display.height

/-- Modelled from the spec: the macro `RGB888_TO_RGB565` is declared in a
header that is not part of the sources; it packs a 24-bit colour into the 16-bit
5-6-5 encoding, keeping the top bits of each channel. -/
def RGB888_TO_RGB565 (c : Nat) : Nat :=
  ((((c >>> 19) &&& 0x1F) <<< 11) ||| (((c >>> 10) &&& 0x3F) <<< 5) ||| ((c >>> 3) &&& 0x1F)) % 65536

/-! ## The font -/

/-- Modelled from the spec: `font.h` is not part of the sources.  A font has a
fixed glyph `width` and `height` (8-bit values) and a glyph table; `data ch col`
stands for the table entry of column `col` of character `ch`. -/
structure font_t where
  width : Nat
  height : Nat
  data : Nat → Nat → Nat

/-- Modelled from the spec: `font_read_column` of the missing `font.c`; it
returns the 8-bit column mask of the glyph column. -/
def font_read_column (font : font_t) (ch col : Nat) : Nat :=
  font.data ch col % 256

/-! ## The canvas -/

/-- Modelled from the spec: `enum align_t` is declared in the missing
`canvas.h`.  A C enum object can hold values other than its enumerators;
`invalid v` stands for any such value. -/
inductive align_t where
  | ALIGN_LEFT
  | ALIGN_CENTER
  | ALIGN_RIGHT
  | invalid (v : Nat)
  deriving DecidableEq, Repr

/-- The record `struct canvas_t`, with the fields that `canvas.c` uses.  The
display that `canvas->display` points to is held by value, so that the calls
made on it are part of the state. -/
structure canvas_t where
  display : display_t
  font : font_t
  fg_color : Nat
  bg_color : Nat
  thickness : Nat

/-- The function `canvas_init` (canvas.c:6-13). -/
def canvas_init (canvas : canvas_t) (display : display_t) (font : font_t) : canvas_t :=
  { canvas with
    display := display
    font := font
    fg_color := RGB888_TO_RGB565 0xFFFFFF
    bg_color := RGB888_TO_RGB565 0x000000
    thickness := 1 }

/-- The function `canvas_set_font` (canvas.c:15-18). -/
def canvas_set_font (canvas : canvas_t) (font : font_t) : canvas_t :=
  { canvas with font := font }

/-- The function `canvas_set_fg_color` (canvas.c:20-23). -/
def canvas_set_fg_color (canvas : canvas_t) (fg_color : Nat) : canvas_t :=
  { canvas with fg_color := fg_color }

/-- The function `canvas_set_bg_color` (canvas.c:25-28). -/
def canvas_set_bg_color (canvas : canvas_t) (bg_color : Nat) : canvas_t :=
  { canvas with bg_color := bg_color }

/-- The function `canvas_set_thickness` (canvas.c:30-33). -/
def canvas_set_thickness (canvas : canvas_t) (thickness : Nat) : canvas_t :=
  { canvas with thickness := thickness }

/-- The loop of `canvas_fill_rectangle` (canvas.c:38-40): `i` is the `uint16_t`
counter, `bound` the value of `(uint16_t) w * (uint16_t) h`. -/
def fill_loop (bound color : Nat) : Nat → Nat → display_t → Option display_t
  | 0, _, _ => none
  | fuel + 1, i, display =>
    if i < bound then
      fill_loop bound color fuel ((i + 1) % 65536) (display_write_pixel display color)
    else
      some display

/-- The function `canvas_fill_rectangle` (canvas.c:35-41).  The arguments `x y w h` are
`uint8_t` values. -/
def canvas_fill_rectangle (fuel : Nat) (canvas : canvas_t) (x y w h color : Nat) :
    Option canvas_t :=
  match fill_loop ((w * h) % 65536) color fuel 0 (display_set_window canvas.display x y w h) with
  | none => none
  | some display => some { canvas with display := display }

/-- The function `canvas_clear` (canvas.c:43-48). -/
def canvas_clear (fuel : Nat) (canvas : canvas_t) (color : Nat) : Option canvas_t :=
  let w := display_get_width canvas.display % 256
  let h := display_get_height canvas.display % 256
  canvas_fill_rectangle fuel canvas 0 0 w h color

/-- The function `canvas_draw_hline` (canvas.c:50-56).  The arguments of the call of
`canvas_fill_rectangle` are computed in `int` and converted to `uint8_t`. -/
def canvas_draw_hline (fuel : Nat) (canvas : canvas_t) (x y w : Nat) : Option canvas_t :=
  let color := canvas.fg_color
  let tt := canvas.thickness
  let t := tt / 2
  canvas_fill_rectangle fuel canvas (u8 ((x : Int) - t)) (u8 ((y : Int) - t))
    (u8 ((w : Int) + tt + 1)) (u8 ((tt : Int) + 1)) color

/-- The function `canvas_draw_vline` (canvas.c:58-64). -/
def canvas_draw_vline (fuel : Nat) (canvas : canvas_t) (x y h : Nat) : Option canvas_t :=
  let color := canvas.fg_color
  let tt := canvas.thickness
  let t := tt / 2
  canvas_fill_rectangle fuel canvas (u8 ((x : Int) - t)) (u8 ((y : Int) - t))
    (u8 ((tt : Int) + 1)) (u8 ((h : Int) + tt + 1)) color

/-! ## Text -/

/-- Modelled from the spec: `panic.h` is not part of the sources; `panic()`
halts execution and does not return to its caller, so the calls made on the
display up to that point are the whole trace.  An `Outcome` is the result of a
call that may end in `panic()`. -/
inductive Outcome where
  | returned (canvas : canvas_t)
  | panicked (canvas : canvas_t)
  | out_of_fuel

/-- The first loop of `canvas_draw_text` (canvas.c:72-75): `text_width` is a
`uint8_t` to which the glyph width is added once per character.  `text` is the
sequence of characters before the terminating NUL. -/
def text_width_loop (font : font_t) : List Nat → Nat → Nat
  | [], text_width => text_width
  | _ :: rest, text_width => text_width_loop font rest ((text_width + font.width) % 256)

/-- The computation of `left_paddding` (canvas.c:76-92); `none` stands for the
call of `panic()`. -/
def left_padding (align : align_t) (w text_width : Nat) : Option Nat :=
  if text_width < w then
    match align with
    | align_t.ALIGN_LEFT => some 0
    | align_t.ALIGN_CENTER => some (u8 (((w : Int) - text_width) / 2))
    | align_t.ALIGN_RIGHT => some (u8 ((w : Int) - text_width))
    | align_t.invalid _ => none
  else
    some 0

/-- The row loop of a padding column (canvas.c:95-97 and 110-112): `row` is
the `uint8_t` counter. -/
def bg_rows (font : font_t) (bg_color : Nat) : Nat → Nat → display_t → Option display_t
  | 0, _, _ => none
  | fuel + 1, row, display =>
    if row < font.height then
      bg_rows font bg_color fuel ((row + 1) % 256) (display_write_pixel display bg_color)
    else
      some display

/-- The padding loops (canvas.c:94-98 with `bound = left_paddding`, and
canvas.c:109-113 with `bound = w`): `current_width` is a `uint8_t`.  The result
holds the final value of `current_width`. -/
def pad_columns (font : font_t) (bg_color bound gas : Nat) :
    Nat → Nat → display_t → Option (Nat × display_t)
  | 0, _, _ => none
  | fuel + 1, current_width, display =>
    if current_width < bound then
      match bg_rows font bg_color gas 0 display with
      | none => none
      | some display' =>
        pad_columns font bg_color bound gas fuel ((current_width + 1) % 256) display'
    else
      some (current_width, display)

/-- The row loop of a glyph column (canvas.c:102-106): `col_pixels` is the
`uint8_t` mask, shifted right once per row. -/
def glyph_rows (font : font_t) (fg_color bg_color : Nat) :
    Nat → Nat → Nat → display_t → Option display_t
  | 0, _, _, _ => none
  | fuel + 1, row, col_pixels, display =>
    if row < font.height then
      let color := if col_pixels &&& 0x01 ≠ 0 then fg_color else bg_color
      glyph_rows font fg_color bg_color fuel ((row + 1) % 256) (col_pixels >>> 1)
        (display_write_pixel display color)
    else
      some display

/-- The column loop of one character (canvas.c:100-107): `col` and
`current_width` are `uint8_t` counters. -/
def glyph_columns (font : font_t) (fg_color bg_color w ch gas : Nat) :
    Nat → Nat → Nat → display_t → Option (Nat × display_t)
  | 0, _, _, _ => none
  | fuel + 1, col, current_width, display =>
    if col < font.width ∧ current_width < w then
      let col_pixels := font_read_column font (ch % 256) col
      match glyph_rows font fg_color bg_color gas 0 col_pixels display with
      | none => none
      | some display' =>
        glyph_columns font fg_color bg_color w ch gas fuel ((col + 1) % 256)
          ((current_width + 1) % 256) display'
    else
      some (current_width, display)

/-- The character loop (canvas.c:99-108). -/
def text_loop (font : font_t) (fg_color bg_color w gas : Nat) :
    List Nat → Nat → display_t → Option (Nat × display_t)
  | [], current_width, display => some (current_width, display)
  | ch :: rest, current_width, display =>
    match glyph_columns font fg_color bg_color w ch gas gas 0 current_width display with
    | none => none
    | some (current_width', display') =>
      text_loop font fg_color bg_color w gas rest current_width' display'

/-- The function `canvas_draw_text` (canvas.c:66-114).  Every loop with a machine counter
may run for `fuel` iterations. -/
def canvas_draw_text (fuel : Nat) (canvas : canvas_t) (x y w : Nat) (align : align_t)
    (text : List Nat) : Outcome :=
  let font := canvas.font
  let fg_color := canvas.fg_color
  let bg_color := canvas.bg_color
  let display := display_set_window canvas.display x y w font.height
  let text_width := text_width_loop font text 0
  match left_padding align w text_width with
  | none => Outcome.panicked { canvas with display := display }
  | some left_paddding =>
    match pad_columns font bg_color left_paddding fuel fuel 0 display with
    | none => Outcome.out_of_fuel
    | some (current_width, display1) =>
      match text_loop font fg_color bg_color w fuel text current_width display1 with
      | none => Outcome.out_of_fuel
      | some (current_width', display2) =>
        match pad_columns font bg_color w fuel fuel current_width' display2 with
        | none => Outcome.out_of_fuel
        | some (_, display3) => Outcome.returned { canvas with display := display3 }

/-! ## The PC simulation (`src/main_pc.c`) -/

/-- The constant `WINDOW_WIDTH` (main_pc.c:19): the width of the window, and the
distance in pixels between two rows of its surface as `tft_draw_char` computes
it. -/
def WINDOW_WIDTH : Nat := 640

/-- The constant `WINDOW_HEIGHT` (main_pc.c:20): the height of the window.  The
surface that `main` obtains for the window of `WINDOW_WIDTH` by `WINDOW_HEIGHT`
pixels (main_pc.c:147-155) holds `WINDOW_WIDTH * WINDOW_HEIGHT` words of 32 bits. -/
def WINDOW_HEIGHT : Nat := 640

/-- The colour constants `COLOR_BLACK`, `COLOR_WHITE` and `COLOR_DARKGREY`, declared
in a header that is not part of the sources, and the SDL pixel values that `main`
stores in the statics `black`, `white`, `darkgrey` and `red` (main_pc.c:28-31 and
157-160); all are taken as parameters. -/
structure palette_t where
  COLOR_BLACK : Nat
  COLOR_WHITE : Nat
  COLOR_DARKGREY : Nat
  black : Nat
  white : Nat
  darkgrey : Nat
  red : Nat

/-- The function `to_sdl_color` (main_pc.c:33-45). -/
def to_sdl_color (palette : palette_t) (color : Nat) : Nat :=
  if color = palette.COLOR_BLACK then palette.black
  else if color = palette.COLOR_WHITE then palette.white
  else if color = palette.COLOR_DARKGREY then palette.darkgrey
  else palette.red

/-- The fields of `struct tft_t` that `tft_draw_char` reads. -/
structure tft_t where
  font : font_t
  bg_color : Nat
  fg_color : Nat

/-- The result of a computation that indexes the 48-entry array `charPixels` and
stores into the window surface: `array_overrun` stands for an access to
`charPixels` at an index of 48 or more, `surface_overrun` for a store at a word
offset of `WINDOW_WIDTH * WINDOW_HEIGHT` or more, outside the surface. -/
inductive Access (α : Type) where
  | ok (value : α)
  | array_overrun
  | surface_overrun
  | out_of_fuel

/-- A store of `value` at `index` in a memory of 32-bit words. -/
def store (memory : Nat → Nat) (index value : Nat) : Nat → Nat :=
  fun j => if j = index then value else memory j

/-- The row loop of `tft_draw_char` (main_pc.c:104-111): `k` is the `uint8_t`
counter, `charData` the `uint8_t` mask, shifted right once per row. -/
def char_rows (palette : palette_t) (tft : tft_t) (i : Nat) :
    Nat → Nat → Nat → (Nat → Nat) → Access (Nat → Nat)
  | 0, _, _, _ => Access.out_of_fuel
  | fuel + 1, k, charData, charPixels =>
    if k < tft.font.height then
      if i * 8 + k < 6 * 8 then
        let value :=
          if charData &&& 1 ≠ 0 then to_sdl_color palette tft.fg_color
          else to_sdl_color palette tft.bg_color
        char_rows palette tft i fuel ((k + 1) % 256) (charData >>> 1)
          (store charPixels (i * 8 + k) value)
      else
        Access.array_overrun
    else
      Access.ok charPixels

/-- The column loop of `tft_draw_char` (main_pc.c:100-112): `i` is the `uint8_t`
counter. -/
def char_columns (palette : palette_t) (tft : tft_t) (ch gas : Nat) :
    Nat → Nat → (Nat → Nat) → Access (Nat → Nat)
  | 0, _, _ => Access.out_of_fuel
  | fuel + 1, i, charPixels =>
    if i < tft.font.width then
      let charData := font_read_column tft.font (ch % 256) i
      match char_rows palette tft i gas 0 charData charPixels with
      | Access.ok charPixels' =>
        char_columns palette tft ch gas fuel ((i + 1) % 256) charPixels'
      | Access.array_overrun => Access.array_overrun
      | Access.surface_overrun => Access.surface_overrun
      | Access.out_of_fuel => Access.out_of_fuel
    else
      Access.ok charPixels

/-- The inner loop of the copy to the surface (main_pc.c:115-120): `x` is an `int`
that starts at `x0` and increases, as `y` does from `y0`, so `xx` and `yy` are not
negative.  `pixels` is the surface at `screen->pixels`, addressed in 32-bit words;
it has `WINDOW_WIDTH * WINDOW_HEIGHT` of them. -/
def blit_row (charPixels : Nat → Nat) (x0 y0 x1 y : Nat) :
    Nat → Nat → (Nat → Nat) → Access (Nat → Nat)
  | 0, _, _ => Access.out_of_fuel
  | fuel + 1, x, pixels =>
    if x < x1 then
      let yy := y - y0
      let xx := x - x0
      if xx * 8 + yy < 6 * 8 then
        if (y0 + yy) * WINDOW_WIDTH + x0 + xx < WINDOW_WIDTH * WINDOW_HEIGHT then
          blit_row charPixels x0 y0 x1 y fuel (x + 1)
            (store pixels ((y0 + yy) * WINDOW_WIDTH + x0 + xx) (charPixels (xx * 8 + yy)))
        else
          Access.surface_overrun
      else
        Access.array_overrun
    else
      Access.ok pixels

/-- The outer loop of the copy to the surface (main_pc.c:113-121). -/
def blit (charPixels : Nat → Nat) (x0 y0 x1 y1 gas : Nat) :
    Nat → Nat → (Nat → Nat) → Access (Nat → Nat)
  | 0, _, _ => Access.out_of_fuel
  | fuel + 1, y, pixels =>
    if y < y1 then
      match blit_row charPixels x0 y0 x1 y gas x0 pixels with
      | Access.ok pixels' => blit charPixels x0 y0 x1 y1 gas fuel (y + 1) pixels'
      | Access.array_overrun => Access.array_overrun
      | Access.surface_overrun => Access.surface_overrun
      | Access.out_of_fuel => Access.out_of_fuel
    else
      Access.ok pixels

/-- The function `tft_draw_char` (main_pc.c:90-122).  `x` and `y` are `uint8_t`
values, `pixels` is the surface at `screen->pixels`; the result is that surface
after the call. -/
def tft_draw_char (palette : palette_t) (fuel : Nat) (tft : tft_t) (x y ch : Nat)
    (pixels : Nat → Nat) : Access (Nat → Nat) :=
  let pixel_x := (x * tft.font.width) % 65536
  let pixel_y := (y * tft.font.height) % 65536
  let x0 := pixel_x
  let y0 := pixel_y
  let x1 := pixel_x + tft.font.width
  let y1 := pixel_y + tft.font.height
  match char_columns palette tft ch fuel fuel 0 (fun _ => 0) with
  | Access.ok charPixels => blit charPixels x0 y0 x1 y1 fuel fuel y0 pixels
  | Access.array_overrun => Access.array_overrun
  | Access.surface_overrun => Access.surface_overrun
  | Access.out_of_fuel => Access.out_of_fuel

/-! ## Specification vocabulary -/

/-- The canvas after the calls `ops` have been made on its display. -/
def canvas_t.emit (canvas : canvas_t) (ops : List DisplayOp) : canvas_t :=
  { canvas with display := { canvas.display with log := canvas.display.log ++ ops } }

/-- The display after the calls `ops` have been made on it. -/
def display_t.emit (display : display_t) (ops : List DisplayOp) : display_t :=
  { display with log := display.log ++ ops }

/-- The trace of a filled rectangle: one `set_window`, then `w * h` writes. -/
def rectangle_trace (x y w h color : Nat) : List DisplayOp :=
  DisplayOp.set_window x y w h :: List.replicate (w * h) (DisplayOp.write_pixel color)

/-- The log of the display of a canvas. -/
def canvas_t.log (canvas : canvas_t) : List DisplayOp := canvas.display.log

/-- The display log at the end of a call, when the call ended at all. -/
def Outcome.log : Outcome → Option (List DisplayOp)
  | Outcome.returned canvas => some canvas.display.log
  | Outcome.panicked canvas => some canvas.display.log
  | Outcome.out_of_fuel => none

/-- Whether the call ended in `panic()`. -/
def Outcome.is_panic : Outcome → Bool
  | Outcome.panicked _ => true
  | _ => false

/-- Whether the call returned to its caller. -/
def Outcome.is_return : Outcome → Bool
  | Outcome.returned _ => true
  | _ => false

/-- The number of `write_pixel` calls in a trace. -/
def count_writes : List DisplayOp → Nat
  | [] => 0
  | DisplayOp.write_pixel _ :: rest => count_writes rest + 1
  | DisplayOp.set_window _ _ _ _ :: rest => count_writes rest

/-- A column of `height` background pixels. -/
def bg_column (height bg_color : Nat) : List DisplayOp :=
  List.replicate height (DisplayOp.write_pixel bg_color)

/-- The pixels of `n` background columns. -/
def bg_columns (n height bg_color : Nat) : List DisplayOp :=
  (List.replicate n (bg_column height bg_color)).flatten

/-- The pixels of a glyph column with mask `m`: row `i` is the foreground colour
when bit `i` of `m` is set and the background colour otherwise. -/
def mask_column (height fg_color bg_color m : Nat) : List DisplayOp :=
  (List.range height).map fun i =>
    DisplayOp.write_pixel (if m / 2 ^ i % 2 = 1 then fg_color else bg_color)

/-- The pixels of column `col` of character `ch`. -/
def glyph_column (font : font_t) (fg_color bg_color ch col : Nat) : List DisplayOp :=
  mask_column font.height fg_color bg_color (font_read_column font (ch % 256) col)

/-- Column `k` of the text as a whole: column `k mod width` of character
`k / width`. -/
def text_column (font : font_t) (fg_color bg_color : Nat) (text : List Nat) (k : Nat) :
    List DisplayOp :=
  glyph_column font fg_color bg_color (text.getD (k / font.width) 0) (k % font.width)

/-- The first `n` columns of the text, in order. -/
def text_columns (font : font_t) (fg_color bg_color : Nat) (text : List Nat) (n : Nat) :
    List DisplayOp :=
  ((List.range n).map (text_column font fg_color bg_color text)).flatten

/-- A font of 6 by 8 glyphs whose column mask depends on character and column. -/
def sample_font : font_t := { width := 6, height := 8, data := fun ch col => ch + col }

/-- A display of 176 by 220 pixels on which nothing has been drawn. -/
def sample_display : display_t := { width := 176, height := 220, log := [] }

/-- A canvas in its initial state. -/
def sample_canvas : canvas_t :=
  canvas_init
    { display := sample_display, font := sample_font, fg_color := 0, bg_color := 0,
      thickness := 0 }
    sample_display sample_font

/-- The initial canvas with its stroke thickness set to 3. -/
def thick_canvas : canvas_t := canvas_set_thickness sample_canvas 3

/-- The initial canvas with its stroke thickness set to 4. -/
def even_canvas : canvas_t := canvas_set_thickness sample_canvas 4

/-- A text of 43 characters: with 6-pixel glyphs its width of 258 pixels does not
fit in 8 bits. -/
def long_text : List Nat := List.replicate 43 65

/-- The left padding in the words of the specification, for a text of width
`text_width` narrower than the window: 0 for LEFT, `(w - text_width) / 2` for
CENTER and `w - text_width` for RIGHT. -/
def spec_left_padding : align_t → Nat → Nat → Nat
  | align_t.ALIGN_LEFT, _, _ => 0
  | align_t.ALIGN_CENTER, w, text_width => (w - text_width) / 2
  | align_t.ALIGN_RIGHT, w, text_width => w - text_width
  | align_t.invalid _, _, _ => 0

/-- The initial canvas with its stroke thickness set to 255. -/
def widest_canvas : canvas_t := canvas_set_thickness sample_canvas 255

/-- The initial canvas with its stroke thickness set to 5. -/
def odd_canvas : canvas_t := canvas_set_thickness sample_canvas 5

/-- The leading padding of a text of `n = character_count * glyph_width` pixels in
the words of the claims: with `tw8 = n mod 256`, it is 0 when `tw8 >= w` and
otherwise 0, `(w - tw8) / 2` or `w - tw8` for LEFT, CENTER or RIGHT. -/
def text_padding (align : align_t) (w n : Nat) : Nat :=
  if w ≤ n % 256 then 0 else spec_left_padding align w (n % 256)

/-- The SDL pixel value of row `j` of a glyph column with mask `m`: that of the
foreground colour when bit `j` of `m` is set, of the background colour otherwise. -/
def sim_pixel (palette : palette_t) (tft : tft_t) (m j : Nat) : Nat :=
  to_sdl_color palette (if m.testBit j then tft.fg_color else tft.bg_color)

/-- Whether the call ended in a store outside the window surface. -/
def Access.is_surface_overrun {α : Type} : Access α → Bool
  | Access.surface_overrun => true
  | _ => false

/-- The word at `offset` of the surface after a call that finished. -/
def Access.word : Access (Nat → Nat) → Nat → Option Nat
  | Access.ok pixels, offset => some (pixels offset)
  | _, _ => none

/-- A canvas with the font and the colours of the simulated screen. -/
def tft_canvas (tft : tft_t) (display : display_t) : canvas_t :=
  { display := display, font := tft.font, fg_color := tft.fg_color,
    bg_color := tft.bg_color, thickness := 1 }

/-- A palette with the RGB565 colour constants and 24-bit pixel values. -/
def sample_palette : palette_t :=
  { COLOR_BLACK := 0x0000, COLOR_WHITE := 0xFFFF, COLOR_DARKGREY := 0xAD55,
    black := 0x000000, white := 0xFFFFFF, darkgrey := 0xA9A9A9, red := 0xFF0000 }

/-- A simulated screen with the sample font, white on black. -/
def sample_tft : tft_t := { font := sample_font, bg_color := 0x0000, fg_color := 0xFFFF }

/-! ## Rectangles and lines -/

theorem fill_loop_spec (bound color : Nat) (hb : bound < 65536) :
    ∀ (fuel i : Nat) (display : display_t), i ≤ bound → bound - i < fuel →
      fill_loop bound color fuel i display =
        some (display.emit (List.replicate (bound - i) (DisplayOp.write_pixel color))) := by
  intro fuel
  induction fuel with
  | zero => intro i display _ h; omega
  | succ fuel ih =>
    intro i display hi hf
    unfold fill_loop
    by_cases hlt : i < bound
    · have hmod : (i + 1) % 65536 = i + 1 := Nat.mod_eq_of_lt (by omega)
      rw [if_pos hlt, hmod, ih (i + 1) _ (by omega) (by omega)]
      have hsplit : bound - i = (bound - (i + 1)) + 1 := by omega
      rw [hsplit, List.replicate_succ]
      simp [display_t.emit, display_write_pixel]
    · have hz : bound - i = 0 := by omega
      rw [if_neg hlt, hz]
      simp [display_t.emit]

theorem canvas_fill_rectangle_spec (fuel : Nat) (canvas : canvas_t) (x y w h color : Nat)
    (hw : w < 256) (hh : h < 256) (hfuel : w * h < fuel) :
    canvas_fill_rectangle fuel canvas x y w h color =
      some (canvas.emit (rectangle_trace x y w h color)) := by
  have hprod : w * h < 65536 := by nlinarith
  have hmod : (w * h) % 65536 = w * h := Nat.mod_eq_of_lt hprod
  unfold canvas_fill_rectangle
  rw [hmod, fill_loop_spec (w * h) color hprod fuel 0 _ (Nat.zero_le _) (by omega)]
  simp [canvas_t.emit, display_t.emit, display_set_window, rectangle_trace]


/-! ## Text: the loops -/

theorem display_emit_emit (display : display_t) (a b : List DisplayOp) :
    (display.emit a).emit b = display.emit (a ++ b) := by
  simp [display_t.emit]

theorem display_write_pixel_eq (display : display_t) (color : Nat) :
    display_write_pixel display color = display.emit [DisplayOp.write_pixel color] := rfl

theorem display_emit_nil (display : display_t) : display.emit [] = display := by
  simp [display_t.emit]

theorem text_width_loop_spec (font : font_t) :
    ∀ (text : List Nat) (tw : Nat), tw < 256 →
      text_width_loop font text tw = (tw + text.length * font.width) % 256 := by
  intro text
  induction text with
  | nil =>
    intro tw htw
    simp [text_width_loop, Nat.mod_eq_of_lt htw]
  | cons ch rest ih =>
    intro tw _
    rw [text_width_loop, ih _ (Nat.mod_lt _ (by decide)), List.length_cons, Nat.succ_mul]
    generalize rest.length * font.width = n
    omega

theorem bg_rows_spec (font : font_t) (bg_color : Nat) (hh : font.height < 256) :
    ∀ (fuel row : Nat) (display : display_t), row ≤ font.height → font.height - row < fuel →
      bg_rows font bg_color fuel row display =
        some (display.emit (List.replicate (font.height - row) (DisplayOp.write_pixel bg_color))) := by
  intro fuel
  induction fuel with
  | zero => intro row display _ h; omega
  | succ fuel ih =>
    intro row display hrow hf
    unfold bg_rows
    by_cases hlt : row < font.height
    · have hmod : (row + 1) % 256 = row + 1 := Nat.mod_eq_of_lt (by omega)
      rw [if_pos hlt, hmod, ih (row + 1) _ (by omega) (by omega), display_write_pixel_eq,
        display_emit_emit]
      have hsplit : font.height - row = (font.height - (row + 1)) + 1 := by omega
      rw [hsplit, List.replicate_succ]
      rfl
    · have hz : font.height - row = 0 := by omega
      rw [if_neg hlt, hz, List.replicate_zero, display_emit_nil]

theorem bg_columns_succ (n height bg_color : Nat) :
    bg_columns (n + 1) height bg_color = bg_column height bg_color ++ bg_columns n height bg_color := by
  simp [bg_columns, List.replicate_succ]

theorem pad_columns_spec (font : font_t) (bg_color bound gas : Nat) (hh : font.height < 256)
    (hgas : font.height < gas) (hb : bound < 256) :
    ∀ (fuel cw : Nat) (display : display_t), cw ≤ bound → bound - cw < fuel →
      pad_columns font bg_color bound gas fuel cw display =
        some (bound, display.emit (bg_columns (bound - cw) font.height bg_color)) := by
  intro fuel
  induction fuel with
  | zero => intro cw display _ h; omega
  | succ fuel ih =>
    intro cw display hcw hf
    unfold pad_columns
    by_cases hlt : cw < bound
    · have hmod : (cw + 1) % 256 = cw + 1 := Nat.mod_eq_of_lt (by omega)
      rw [if_pos hlt, bg_rows_spec font bg_color hh gas 0 display (Nat.zero_le _) (by omega)]
      simp only
      rw [hmod, ih (cw + 1) _ (by omega) (by omega), display_emit_emit]
      have hsplit : bound - cw = (bound - (cw + 1)) + 1 := by omega
      rw [hsplit, bg_columns_succ]
      rfl
    · have hz : bound - cw = 0 := by omega
      have hcw' : cw = bound := by omega
      rw [if_neg hlt, hz, hcw']
      simp [bg_columns, display_emit_nil]

theorem mask_column_succ (height fg_color bg_color m : Nat) :
    mask_column (height + 1) fg_color bg_color m =
      DisplayOp.write_pixel (if m % 2 = 1 then fg_color else bg_color) ::
        mask_column height fg_color bg_color (m / 2) := by
  unfold mask_column
  rw [List.range_succ_eq_map, List.map_cons, List.map_map]
  congr 1
  · simp
  · apply List.map_congr_left
    intro i _
    have hdiv : m / (2 ^ i * 2) = m / 2 / 2 ^ i := by
      rw [Nat.mul_comm, Nat.div_div_eq_div_mul]
    simp only [Function.comp, Nat.pow_succ, Nat.succ_eq_add_one, hdiv]

theorem glyph_rows_spec (font : font_t) (fg_color bg_color : Nat) (hh : font.height < 256) :
    ∀ (fuel row m : Nat) (display : display_t), row ≤ font.height → font.height - row < fuel →
      glyph_rows font fg_color bg_color fuel row m display =
        some (display.emit (mask_column (font.height - row) fg_color bg_color m)) := by
  intro fuel
  induction fuel with
  | zero => intro row m display _ h; omega
  | succ fuel ih =>
    intro row m display hrow hf
    unfold glyph_rows
    by_cases hlt : row < font.height
    · have hmod : (row + 1) % 256 = row + 1 := Nat.mod_eq_of_lt (by omega)
      have hbit : (m &&& 0x01 ≠ 0) ↔ m % 2 = 1 := by
        rw [Nat.and_one_is_mod]; omega
      have hshift : m >>> 1 = m / 2 := by
        rw [Nat.shiftRight_eq_div_pow]
      rw [if_pos hlt]
      simp only
      rw [hmod, hshift, ih (row + 1) _ _ (by omega) (by omega), display_write_pixel_eq,
        display_emit_emit]
      have hsplit : font.height - row = (font.height - (row + 1)) + 1 := by omega
      rw [hsplit, mask_column_succ]
      simp only [hbit, List.singleton_append]
    · have hz : font.height - row = 0 := by omega
      rw [if_neg hlt, hz]
      simp [mask_column, display_emit_nil]

theorem glyph_columns_spec (font : font_t) (fg_color bg_color w ch gas : Nat)
    (hh : font.height < 256) (hgas : font.height < gas) (hw : w < 256) :
    ∀ (fuel col cw : Nat) (display : display_t), col ≤ cw → cw ≤ w →
      min (font.width - col) (w - cw) < fuel →
      glyph_columns font fg_color bg_color w ch gas fuel col cw display =
        some (cw + min (font.width - col) (w - cw),
          display.emit ((List.range' col (min (font.width - col) (w - cw))).map
            (glyph_column font fg_color bg_color ch)).flatten) := by
  intro fuel
  induction fuel with
  | zero => intro col cw display _ _ h; omega
  | succ fuel ih =>
    intro col cw display hcol hcw hf
    unfold glyph_columns
    by_cases hlt : col < font.width ∧ cw < w
    · have hmod1 : (col + 1) % 256 = col + 1 := Nat.mod_eq_of_lt (by omega)
      have hmod2 : (cw + 1) % 256 = cw + 1 := Nat.mod_eq_of_lt (by omega)
      rw [if_pos hlt]
      simp only
      rw [glyph_rows_spec font fg_color bg_color hh gas 0 _ display (Nat.zero_le _) (by omega)]
      simp only
      rw [hmod1, hmod2, ih (col + 1) (cw + 1) _ (by omega) (by omega) (by omega),
        display_emit_emit]
      have hk : min (font.width - col) (w - cw) =
          min (font.width - (col + 1)) (w - (cw + 1)) + 1 := by omega
      rw [hk, List.range'_succ, List.map_cons, List.flatten_cons]
      congr 2
      omega
    · have hz : min (font.width - col) (w - cw) = 0 := by omega
      rw [if_neg hlt, hz]
      simp [display_emit_nil]

theorem text_column_head (font : font_t) (fg_color bg_color ch : Nat) (rest : List Nat)
    (k : Nat) (hk : k < font.width) :
    text_column font fg_color bg_color (ch :: rest) k = glyph_column font fg_color bg_color ch k := by
  unfold text_column
  rw [Nat.div_eq_of_lt hk, Nat.mod_eq_of_lt hk]
  rfl

theorem text_column_tail (font : font_t) (fg_color bg_color ch : Nat) (rest : List Nat)
    (j : Nat) (hpos : 0 < font.width) :
    text_column font fg_color bg_color (ch :: rest) (font.width + j) =
      text_column font fg_color bg_color rest j := by
  unfold text_column
  have hdiv : (font.width + j) / font.width = j / font.width + 1 := by
    rw [Nat.add_comm, Nat.add_div_right _ hpos]
  have hmod : (font.width + j) % font.width = j % font.width := by
    rw [Nat.add_comm, Nat.add_mod_right]
  rw [hdiv, hmod]
  rfl

theorem text_columns_cons (font : font_t) (fg_color bg_color ch : Nat) (rest : List Nat)
    (k1 k2 : Nat) (hk1 : k1 ≤ font.width)
    (hk2 : k2 = 0 ∨ (k1 = font.width ∧ 0 < font.width)) :
    text_columns font fg_color bg_color (ch :: rest) (k1 + k2) =
      ((List.range' 0 k1).map (glyph_column font fg_color bg_color ch)).flatten ++
        text_columns font fg_color bg_color rest k2 := by
  unfold text_columns
  rw [List.range_add, List.map_append, List.flatten_append, List.map_map,
    ← List.range_eq_range']
  congr 2
  · apply List.map_congr_left
    intro k hk
    exact text_column_head font fg_color bg_color ch rest k (by
      have := List.mem_range.mp hk
      omega)
  · rcases hk2 with h0 | hw
    · subst h0
      rfl
    · obtain ⟨hw, hpos⟩ := hw
      subst hw
      apply List.map_congr_left
      intro j _
      exact text_column_tail font fg_color bg_color ch rest j hpos

theorem text_loop_spec (font : font_t) (fg_color bg_color w gas : Nat)
    (hh : font.height < 256) (hgas : font.height < gas) (hw : w < 256) (hgas2 : w < gas) :
    ∀ (text : List Nat) (cw : Nat) (display : display_t), cw ≤ w →
      text_loop font fg_color bg_color w gas text cw display =
        some (cw + min (text.length * font.width) (w - cw),
          display.emit (text_columns font fg_color bg_color text
            (min (text.length * font.width) (w - cw)))) := by
  intro text
  induction text with
  | nil =>
    intro cw display _
    simp [text_loop, text_columns, display_emit_nil]
  | cons ch rest ih =>
    intro cw display hcw
    unfold text_loop
    rw [glyph_columns_spec font fg_color bg_color w ch gas hh hgas hw gas 0 cw display
      (Nat.zero_le _) hcw (by omega)]
    simp only
    rw [ih _ _ (by omega), display_emit_emit, List.length_cons, Nat.succ_mul]
    have hn : font.width = 0 → rest.length * font.width = 0 := by
      intro h0
      rw [h0, Nat.mul_zero]
    generalize rest.length * font.width = n at hn ⊢
    have hk : min (n + font.width) (w - cw) =
        min (font.width - 0) (w - cw) + min n (w - (cw + min (font.width - 0) (w - cw))) := by
      omega
    rw [hk, text_columns_cons font fg_color bg_color ch rest _ _ (by omega) (by omega)]
    congr 2
    omega

theorem left_padding_some (align : align_t) (w tw : Nat) (hw : w < 256)
    (hal : align = align_t.ALIGN_LEFT ∨ align = align_t.ALIGN_CENTER ∨
      align = align_t.ALIGN_RIGHT) :
    ∃ L, left_padding align w tw = some L ∧ L ≤ w := by
  unfold left_padding u8
  by_cases hlt : tw < w
  · rw [if_pos hlt]
    rcases hal with h | h | h <;> subst h
    · exact ⟨0, rfl, Nat.zero_le _⟩
    · exact ⟨_, rfl, by omega⟩
    · exact ⟨_, rfl, by omega⟩
  · rw [if_neg hlt]
    exact ⟨0, rfl, Nat.zero_le _⟩

theorem left_padding_center (w tw : Nat) (hw : w < 256) (hlt : tw < w) :
    left_padding align_t.ALIGN_CENTER w tw = some ((w - tw) / 2) := by
  unfold left_padding u8
  rw [if_pos hlt]
  simp only [Option.some.injEq]
  omega

theorem left_padding_right (w tw : Nat) (hw : w < 256) (hlt : tw < w) :
    left_padding align_t.ALIGN_RIGHT w tw = some (w - tw) := by
  unfold left_padding u8
  rw [if_pos hlt]
  simp only [Option.some.injEq]
  omega

theorem left_padding_left (w tw : Nat) :
    left_padding align_t.ALIGN_LEFT w tw = some 0 := by
  unfold left_padding
  split <;> rfl

theorem left_padding_wide (align : align_t) (w tw : Nat) (hge : w ≤ tw) :
    left_padding align w tw = some 0 := by
  unfold left_padding
  rw [if_neg (by omega)]

theorem left_padding_invalid (v w tw : Nat) (hlt : tw < w) :
    left_padding (align_t.invalid v) w tw = none := by
  unfold left_padding
  rw [if_pos hlt]

theorem canvas_draw_text_spec (fuel : Nat) (canvas : canvas_t) (x y w : Nat) (align : align_t)
    (text : List Nat) (L : Nat) (hw : w < 256) (hh : canvas.font.height < 256)
    (hf1 : w < fuel) (hf2 : canvas.font.height < fuel)
    (hL : left_padding align w (text_width_loop canvas.font text 0) = some L) (hLw : L ≤ w) :
    canvas_draw_text fuel canvas x y w align text =
      Outcome.returned (canvas.emit (DisplayOp.set_window x y w canvas.font.height ::
        (bg_columns L canvas.font.height canvas.bg_color ++
          text_columns canvas.font canvas.fg_color canvas.bg_color text
            (min (text.length * canvas.font.width) (w - L)) ++
          bg_columns (w - L - min (text.length * canvas.font.width) (w - L))
            canvas.font.height canvas.bg_color))) := by
  unfold canvas_draw_text
  simp only [hL]
  rw [pad_columns_spec canvas.font canvas.bg_color L fuel hh hf2 (by omega) fuel 0 _
    (Nat.zero_le _) (by omega)]
  simp only
  rw [text_loop_spec canvas.font canvas.fg_color canvas.bg_color w fuel hh hf2 hw hf1 text L _ hLw]
  simp only
  rw [pad_columns_spec canvas.font canvas.bg_color w fuel hh hf2 hw fuel _ _ (by omega) (by omega)]
  simp only [display_emit_emit, Nat.sub_zero]
  have hsub : w - (L + min (text.length * canvas.font.width) (w - L)) =
      w - L - min (text.length * canvas.font.width) (w - L) := by omega
  rw [hsub]
  simp [canvas_t.emit, display_t.emit, display_set_window]

theorem canvas_draw_text_panic (fuel : Nat) (canvas : canvas_t) (x y w : Nat) (align : align_t)
    (text : List Nat)
    (hL : left_padding align w (text_width_loop canvas.font text 0) = none) :
    canvas_draw_text fuel canvas x y w align text =
      Outcome.panicked (canvas.emit [DisplayOp.set_window x y w canvas.font.height]) := by
  unfold canvas_draw_text
  simp only [hL]
  rfl

/-! ## Counting pixel writes -/

theorem count_writes_append (a b : List DisplayOp) :
    count_writes (a ++ b) = count_writes a + count_writes b := by
  induction a with
  | nil => simp [count_writes]
  | cons op rest ih =>
    cases op with
    | set_window x y w h => simp [count_writes, ih]
    | write_pixel c => simp [count_writes, ih]; omega

theorem count_writes_bg_column (height bg_color : Nat) :
    count_writes (bg_column height bg_color) = height := by
  unfold bg_column
  induction height with
  | zero => rfl
  | succ n ih => rw [List.replicate_succ, count_writes, ih]

theorem count_writes_bg_columns (n height bg_color : Nat) :
    count_writes (bg_columns n height bg_color) = n * height := by
  induction n with
  | zero => simp [bg_columns, count_writes]
  | succ n ih =>
    rw [bg_columns_succ, count_writes_append, count_writes_bg_column, ih, Nat.succ_mul]
    omega

theorem count_writes_mask_column (height fg_color bg_color : Nat) :
    ∀ m : Nat, count_writes (mask_column height fg_color bg_color m) = height := by
  induction height with
  | zero => intro m; rfl
  | succ n ih => intro m; rw [mask_column_succ, count_writes, ih]

theorem count_writes_text_columns (font : font_t) (fg_color bg_color : Nat) (text : List Nat)
    (n : Nat) :
    count_writes (text_columns font fg_color bg_color text n) = n * font.height := by
  unfold text_columns
  induction n with
  | zero => simp [count_writes]
  | succ n ih =>
    rw [List.range_succ, List.map_append, List.flatten_append, count_writes_append, ih]
    simp only [List.map_cons, List.map_nil, List.flatten_cons, List.flatten_nil,
      List.append_nil, text_column, glyph_column, count_writes_mask_column, Nat.succ_mul]

/-! ## The claims -/

/-- C1: for every canvas, font, window width `w`, valid alignment and text of any
length, `canvas_draw_text` returns and the calls it has made on the display hold
exactly `w * font.height` pixel writes. -/
theorem canvas_draw_text_pixel_count (fuel : Nat) (canvas : canvas_t) (x y w : Nat)
    (align : align_t) (text : List Nat) (hw : w < 256) (hh : canvas.font.height < 256)
    (hf1 : w < fuel) (hf2 : canvas.font.height < fuel)
    (hal : align = align_t.ALIGN_LEFT ∨ align = align_t.ALIGN_CENTER ∨
      align = align_t.ALIGN_RIGHT) :
    ∃ ops, canvas_draw_text fuel canvas x y w align text = Outcome.returned (canvas.emit ops) ∧
      count_writes ops = w * canvas.font.height := by
  obtain ⟨L, hL, hLw⟩ :=
    left_padding_some align w (text_width_loop canvas.font text 0) hw hal
  refine ⟨_, canvas_draw_text_spec fuel canvas x y w align text L hw hh hf1 hf2 hL hLw, ?_⟩
  simp only [count_writes, count_writes_append, count_writes_bg_columns,
    count_writes_text_columns]
  have hG : min (text.length * canvas.font.width) (w - L) ≤ w - L := Nat.min_le_right _ _
  generalize min (text.length * canvas.font.width) (w - L) = G at hG ⊢
  rw [← Nat.add_mul, ← Nat.add_mul]
  congr 1
  omega

/-- Witness of C1: a centred two-character text in a window of 20 columns and a
font of height 8. -/
theorem canvas_draw_text_pixel_count_witness :
    ∃ ops, canvas_draw_text 21 sample_canvas 0 0 20 align_t.ALIGN_CENTER [65, 66] =
        Outcome.returned (sample_canvas.emit ops) ∧
      count_writes ops = 20 * sample_canvas.font.height :=
  canvas_draw_text_pixel_count 21 sample_canvas 0 0 20 align_t.ALIGN_CENTER [65, 66]
    (by decide) (by decide) (by decide) (by decide) (Or.inr (Or.inl rfl))

/-- C2: for all 8-bit `w` and `h`, `canvas_fill_rectangle` returns (the 16-bit
counter reaches `w * h` without wrapping) and the calls it has made are one
`set_window x y w h` followed by `w * h` writes of `color`, nothing else. -/
theorem canvas_fill_rectangle_trace (fuel : Nat) (canvas : canvas_t) (x y w h color : Nat)
    (hw : w < 256) (hh : h < 256) (hfuel : w * h < fuel) :
    canvas_fill_rectangle fuel canvas x y w h color =
      some (canvas.emit (DisplayOp.set_window x y w h ::
        List.replicate (w * h) (DisplayOp.write_pixel color))) :=
  canvas_fill_rectangle_spec fuel canvas x y w h color hw hh hfuel

/-- Witness of C2: the largest rectangle, 255 by 255, with its 65025 writes. -/
theorem canvas_fill_rectangle_trace_witness :
    canvas_fill_rectangle 65026 sample_canvas 0 0 255 255 7 =
      some (sample_canvas.emit (DisplayOp.set_window 0 0 255 255 ::
        List.replicate (255 * 255) (DisplayOp.write_pixel 7))) :=
  canvas_fill_rectangle_trace 65026 sample_canvas 0 0 255 255 7 (by decide) (by decide)
    (by decide)

theorem canvas_draw_hline_spec (fuel : Nat) (canvas : canvas_t) (x y w : Nat)
    (hx : x < 256) (hy : y < 256) (ht : canvas.thickness < 256) :
    canvas_draw_hline fuel canvas x y w =
      canvas_fill_rectangle fuel canvas ((x + 256 - canvas.thickness / 2) % 256)
        ((y + 256 - canvas.thickness / 2) % 256) ((w + canvas.thickness + 1) % 256)
        ((canvas.thickness + 1) % 256) canvas.fg_color := by
  unfold canvas_draw_hline
  simp only
  have h1 : u8 ((x : Int) - (canvas.thickness / 2 : Nat)) =
      (x + 256 - canvas.thickness / 2) % 256 := by unfold u8; omega
  have h2 : u8 ((y : Int) - (canvas.thickness / 2 : Nat)) =
      (y + 256 - canvas.thickness / 2) % 256 := by unfold u8; omega
  have h3 : u8 ((w : Int) + canvas.thickness + 1) = (w + canvas.thickness + 1) % 256 := by
    unfold u8; omega
  have h4 : u8 ((canvas.thickness : Int) + 1) = (canvas.thickness + 1) % 256 := by
    unfold u8; omega
  rw [h1, h2, h3, h4]

theorem canvas_draw_vline_spec (fuel : Nat) (canvas : canvas_t) (x y h : Nat)
    (hx : x < 256) (hy : y < 256) (ht : canvas.thickness < 256) :
    canvas_draw_vline fuel canvas x y h =
      canvas_fill_rectangle fuel canvas ((x + 256 - canvas.thickness / 2) % 256)
        ((y + 256 - canvas.thickness / 2) % 256) ((canvas.thickness + 1) % 256)
        ((h + canvas.thickness + 1) % 256) canvas.fg_color := by
  unfold canvas_draw_vline
  simp only
  have h1 : u8 ((x : Int) - (canvas.thickness / 2 : Nat)) =
      (x + 256 - canvas.thickness / 2) % 256 := by unfold u8; omega
  have h2 : u8 ((y : Int) - (canvas.thickness / 2 : Nat)) =
      (y + 256 - canvas.thickness / 2) % 256 := by unfold u8; omega
  have h3 : u8 ((h : Int) + canvas.thickness + 1) = (h + canvas.thickness + 1) % 256 := by
    unfold u8; omega
  have h4 : u8 ((canvas.thickness : Int) + 1) = (canvas.thickness + 1) % 256 := by
    unfold u8; omega
  rw [h1, h2, h3, h4]

/-- C3: when `x` and `y` are at least `thickness / 2` and `w + thickness + 1` fits
in 8 bits, `canvas_draw_hline x y w` is the call
`canvas_fill_rectangle (x - t/2) (y - t/2) (w + t + 1) (t + 1) fg_color`: it
returns, with one `set_window` of that rectangle followed by its pixels in the
foreground colour. -/
theorem canvas_draw_hline_rectangle (fuel : Nat) (canvas : canvas_t) (x y w : Nat)
    (hx : x < 256) (hy : y < 256) (hxt : canvas.thickness / 2 ≤ x)
    (hyt : canvas.thickness / 2 ≤ y) (hwt : w + canvas.thickness + 1 ≤ 255)
    (hfuel : (w + canvas.thickness + 1) * (canvas.thickness + 1) < fuel) :
    canvas_draw_hline fuel canvas x y w =
        canvas_fill_rectangle fuel canvas (x - canvas.thickness / 2)
          (y - canvas.thickness / 2) (w + canvas.thickness + 1) (canvas.thickness + 1)
          canvas.fg_color ∧
      canvas_draw_hline fuel canvas x y w =
        some (canvas.emit (rectangle_trace (x - canvas.thickness / 2)
          (y - canvas.thickness / 2) (w + canvas.thickness + 1) (canvas.thickness + 1)
          canvas.fg_color)) := by
  have hcall := canvas_draw_hline_spec fuel canvas x y w hx hy (by omega)
  have h1 : (x + 256 - canvas.thickness / 2) % 256 = x - canvas.thickness / 2 := by omega
  have h2 : (y + 256 - canvas.thickness / 2) % 256 = y - canvas.thickness / 2 := by omega
  have h3 : (w + canvas.thickness + 1) % 256 = w + canvas.thickness + 1 := by omega
  have h4 : (canvas.thickness + 1) % 256 = canvas.thickness + 1 := by omega
  rw [h1, h2, h3, h4] at hcall
  refine ⟨hcall, ?_⟩
  rw [hcall]
  exact canvas_fill_rectangle_spec fuel canvas _ _ _ _ _ (by omega) (by omega) hfuel

/-- Witness of C3: thickness 3 fills at `(x - 1, y - 1)` with size `(w + 4, 4)`. -/
theorem canvas_draw_hline_rectangle_witness :
    canvas_draw_hline 57 thick_canvas 5 7 10 =
        canvas_fill_rectangle 57 thick_canvas 4 6 14 4 thick_canvas.fg_color ∧
      canvas_draw_hline 57 thick_canvas 5 7 10 =
        some (thick_canvas.emit (rectangle_trace 4 6 14 4 thick_canvas.fg_color)) :=
  canvas_draw_hline_rectangle 57 thick_canvas 5 7 10 (by decide) (by decide) (by decide)
    (by decide) (by decide) (by decide)

/-- C5: when `x` and `y` are at least `thickness / 2` and `h + thickness + 1` fits
in 8 bits, `canvas_draw_vline x y h` is the call
`canvas_fill_rectangle (x - t/2) (y - t/2) (t + 1) (h + t + 1) fg_color`: it
returns, with one `set_window` of that rectangle followed by its pixels in the
foreground colour. -/
theorem canvas_draw_vline_rectangle (fuel : Nat) (canvas : canvas_t) (x y h : Nat)
    (hx : x < 256) (hy : y < 256) (hxt : canvas.thickness / 2 ≤ x)
    (hyt : canvas.thickness / 2 ≤ y) (hht : h + canvas.thickness + 1 ≤ 255)
    (hfuel : (canvas.thickness + 1) * (h + canvas.thickness + 1) < fuel) :
    canvas_draw_vline fuel canvas x y h =
        canvas_fill_rectangle fuel canvas (x - canvas.thickness / 2)
          (y - canvas.thickness / 2) (canvas.thickness + 1) (h + canvas.thickness + 1)
          canvas.fg_color ∧
      canvas_draw_vline fuel canvas x y h =
        some (canvas.emit (rectangle_trace (x - canvas.thickness / 2)
          (y - canvas.thickness / 2) (canvas.thickness + 1) (h + canvas.thickness + 1)
          canvas.fg_color)) := by
  have hcall := canvas_draw_vline_spec fuel canvas x y h hx hy (by omega)
  have h1 : (x + 256 - canvas.thickness / 2) % 256 = x - canvas.thickness / 2 := by omega
  have h2 : (y + 256 - canvas.thickness / 2) % 256 = y - canvas.thickness / 2 := by omega
  have h3 : (h + canvas.thickness + 1) % 256 = h + canvas.thickness + 1 := by omega
  have h4 : (canvas.thickness + 1) % 256 = canvas.thickness + 1 := by omega
  rw [h1, h2, h3, h4] at hcall
  refine ⟨hcall, ?_⟩
  rw [hcall]
  exact canvas_fill_rectangle_spec fuel canvas _ _ _ _ _ (by omega) (by omega) hfuel

/-- Witness of C5: thickness 3 fills at `(x - 1, y - 1)` with size `(4, h + 4)`. -/
theorem canvas_draw_vline_rectangle_witness :
    canvas_draw_vline 57 thick_canvas 5 7 10 =
        canvas_fill_rectangle 57 thick_canvas 4 6 4 14 thick_canvas.fg_color ∧
      canvas_draw_vline 57 thick_canvas 5 7 10 =
        some (thick_canvas.emit (rectangle_trace 4 6 4 14 thick_canvas.fg_color)) :=
  canvas_draw_vline_rectangle 57 thick_canvas 5 7 10 (by decide) (by decide) (by decide)
    (by decide) (by decide) (by decide)

/-- Counterexample to C4: on the canvas left by `canvas_init` (thickness 1),
`canvas_draw_hline 3 5 0` declares a window of size `(2, 2)` and writes 4 pixels,
not a window of size `(1, 1)` with 1 pixel. -/
theorem canvas_draw_hline_default_counterexample :
    sample_canvas.thickness = 1 ∧
      (canvas_draw_hline 8 sample_canvas 3 5 0).map canvas_t.log =
        some [DisplayOp.set_window 3 5 2 2, DisplayOp.write_pixel 65535,
          DisplayOp.write_pixel 65535, DisplayOp.write_pixel 65535,
          DisplayOp.write_pixel 65535] ∧
      (canvas_draw_hline 8 sample_canvas 3 5 0).map canvas_t.log ≠
        some (sample_canvas.log ++ rectangle_trace 3 5 (0 + 1) 1 sample_canvas.fg_color) := by
  decide

/-- C4, amended: on the canvas left by `canvas_init` (thickness 1),
`canvas_draw_hline x y w` declares a window at `(x, y)` of size `(w + 2, 2)` and
streams `2 * (w + 2)` pixels of the foreground colour, for every `w ≤ 253`. -/
theorem canvas_draw_hline_default (fuel : Nat) (canvas : canvas_t) (display : display_t)
    (font : font_t) (x y w : Nat) (hx : x < 256) (hy : y < 256) (hw : w ≤ 253)
    (hfuel : (w + 2) * 2 < fuel) :
    canvas_draw_hline fuel (canvas_init canvas display font) x y w =
      some ((canvas_init canvas display font).emit (DisplayOp.set_window x y (w + 2) 2 ::
        List.replicate ((w + 2) * 2)
          (DisplayOp.write_pixel (canvas_init canvas display font).fg_color))) := by
  have ht : (canvas_init canvas display font).thickness = 1 := rfl
  have hcall := canvas_draw_hline_spec fuel (canvas_init canvas display font) x y w hx hy
    (by rw [ht]; decide)
  rw [ht] at hcall
  have h1 : (x + 256 - 1 / 2) % 256 = x := by omega
  have h2 : (y + 256 - 1 / 2) % 256 = y := by omega
  have h3 : (w + 1 + 1) % 256 = w + 2 := by omega
  have h4 : (1 + 1) % 256 = 2 := by decide
  rw [h1, h2, h3, h4] at hcall
  rw [hcall]
  exact canvas_fill_rectangle_spec fuel _ x y (w + 2) 2 _ (by omega) (by decide) hfuel

/-- Witness of C4, amended: the widest line, `w = 253`. -/
theorem canvas_draw_hline_default_witness :
    canvas_draw_hline 511 (canvas_init thick_canvas sample_display sample_font) 3 5 253 =
      some ((canvas_init thick_canvas sample_display sample_font).emit
        (DisplayOp.set_window 3 5 (253 + 2) 2 :: List.replicate ((253 + 2) * 2)
          (DisplayOp.write_pixel
            (canvas_init thick_canvas sample_display sample_font).fg_color))) :=
  canvas_draw_hline_default 511 thick_canvas sample_display sample_font 3 5 253 (by decide)
    (by decide) (by decide) (by decide)

theorem text_width_small (font : font_t) (text : List Nat) (w : Nat) (hw : w < 256)
    (htw : text.length * font.width < w) :
    text_width_loop font text 0 = text.length * font.width := by
  rw [text_width_loop_spec font text 0 (by decide), Nat.zero_add]
  exact Nat.mod_eq_of_lt (by omega)

theorem left_padding_narrow (align : align_t) (w tw : Nat) (hw : w < 256) (htw : tw < w)
    (hal : align = align_t.ALIGN_LEFT ∨ align = align_t.ALIGN_CENTER ∨
      align = align_t.ALIGN_RIGHT) :
    left_padding align w tw = some (spec_left_padding align w tw) ∧
      spec_left_padding align w tw + tw ≤ w := by
  rcases hal with h | h | h <;> subst h
  · exact ⟨left_padding_left w tw, by simp only [spec_left_padding]; omega⟩
  · exact ⟨left_padding_center w tw hw htw, by simp only [spec_left_padding]; omega⟩
  · exact ⟨left_padding_right w tw hw htw, by simp only [spec_left_padding]; omega⟩

/-- C6: for a text whose width `tw = character_count * glyph_width` is less than
`w`, `canvas_draw_text` returns and its calls are the `set_window`, then `L` full
columns of background, then the `tw` glyph columns of the text, then the remaining
background columns, where `L` is 0 for LEFT, `(w - tw) / 2` for CENTER and
`w - tw` for RIGHT. -/
theorem canvas_draw_text_left_padding (fuel : Nat) (canvas : canvas_t) (x y w : Nat)
    (align : align_t) (text : List Nat) (hw : w < 256) (hh : canvas.font.height < 256)
    (hf1 : w < fuel) (hf2 : canvas.font.height < fuel)
    (hal : align = align_t.ALIGN_LEFT ∨ align = align_t.ALIGN_CENTER ∨
      align = align_t.ALIGN_RIGHT)
    (htw : text.length * canvas.font.width < w) :
    canvas_draw_text fuel canvas x y w align text =
      Outcome.returned (canvas.emit (DisplayOp.set_window x y w canvas.font.height ::
        (bg_columns (spec_left_padding align w (text.length * canvas.font.width))
            canvas.font.height canvas.bg_color ++
          text_columns canvas.font canvas.fg_color canvas.bg_color text
            (text.length * canvas.font.width) ++
          bg_columns (w - spec_left_padding align w (text.length * canvas.font.width) -
            text.length * canvas.font.width) canvas.font.height canvas.bg_color))) := by
  have htext := text_width_small canvas.font text w hw htw
  obtain ⟨hL, hLw⟩ :=
    left_padding_narrow align w (text.length * canvas.font.width) hw htw hal
  have hL' : left_padding align w (text_width_loop canvas.font text 0) =
      some (spec_left_padding align w (text.length * canvas.font.width)) := by
    rw [htext]
    exact hL
  have hspec := canvas_draw_text_spec fuel canvas x y w align text _ hw hh hf1 hf2 hL'
    (by omega)
  have hG : min (text.length * canvas.font.width)
      (w - spec_left_padding align w (text.length * canvas.font.width)) =
      text.length * canvas.font.width := by omega
  rw [hG] at hspec
  exact hspec

/-- Witness of C6: `w = 20`, glyph width 6 and a text of 2 characters; the
padding is 0 columns for LEFT, 4 for CENTER and 8 for RIGHT. -/
theorem canvas_draw_text_left_padding_witness :
    canvas_draw_text 21 sample_canvas 0 0 20 align_t.ALIGN_LEFT [65, 66] =
        Outcome.returned (sample_canvas.emit (DisplayOp.set_window 0 0 20 8 ::
          (bg_columns 0 8 0 ++ text_columns sample_font 65535 0 [65, 66] 12 ++
            bg_columns 8 8 0))) ∧
      canvas_draw_text 21 sample_canvas 0 0 20 align_t.ALIGN_CENTER [65, 66] =
        Outcome.returned (sample_canvas.emit (DisplayOp.set_window 0 0 20 8 ::
          (bg_columns 4 8 0 ++ text_columns sample_font 65535 0 [65, 66] 12 ++
            bg_columns 4 8 0))) ∧
      canvas_draw_text 21 sample_canvas 0 0 20 align_t.ALIGN_RIGHT [65, 66] =
        Outcome.returned (sample_canvas.emit (DisplayOp.set_window 0 0 20 8 ::
          (bg_columns 8 8 0 ++ text_columns sample_font 65535 0 [65, 66] 12 ++
            bg_columns 0 8 0))) :=
  ⟨canvas_draw_text_left_padding 21 sample_canvas 0 0 20 align_t.ALIGN_LEFT [65, 66]
      (by decide) (by decide) (by decide) (by decide) (Or.inl rfl) (by decide),
    canvas_draw_text_left_padding 21 sample_canvas 0 0 20 align_t.ALIGN_CENTER [65, 66]
      (by decide) (by decide) (by decide) (by decide) (Or.inr (Or.inl rfl)) (by decide),
    canvas_draw_text_left_padding 21 sample_canvas 0 0 20 align_t.ALIGN_RIGHT [65, 66]
      (by decide) (by decide) (by decide) (by decide) (Or.inr (Or.inr rfl)) (by decide)⟩

theorem canvas_draw_text_truncated (fuel : Nat) (canvas : canvas_t) (x y w : Nat)
    (align : align_t) (text : List Nat) (hw : w < 256) (hh : canvas.font.height < 256)
    (hf1 : w < fuel) (hf2 : canvas.font.height < fuel)
    (hn : w ≤ text.length * canvas.font.width)
    (hL : left_padding align w (text_width_loop canvas.font text 0) = some 0) :
    canvas_draw_text fuel canvas x y w align text =
      Outcome.returned (canvas.emit (DisplayOp.set_window x y w canvas.font.height ::
        text_columns canvas.font canvas.fg_color canvas.bg_color text w)) := by
  have hspec := canvas_draw_text_spec fuel canvas x y w align text 0 hw hh hf1 hf2 hL
    (Nat.zero_le _)
  have hG : min (text.length * canvas.font.width) (w - 0) = w := by omega
  rw [hG] at hspec
  simpa [bg_columns] using hspec

/-- Where `character_count * glyph_width` fits in 8 bits and is at least `w`, the
fit test of canvas.c:77 fails as intended and `canvas_draw_text` draws, for every
alignment, the first `w` glyph columns of the text with no padding before or
after them. -/
theorem canvas_draw_text_truncation_no_overflow (fuel : Nat) (canvas : canvas_t)
    (x y w : Nat) (align : align_t) (text : List Nat) (hw : w < 256)
    (hh : canvas.font.height < 256) (hf1 : w < fuel) (hf2 : canvas.font.height < fuel)
    (hn : w ≤ text.length * canvas.font.width)
    (hfit : text.length * canvas.font.width < 256) :
    canvas_draw_text fuel canvas x y w align text =
      Outcome.returned (canvas.emit (DisplayOp.set_window x y w canvas.font.height ::
        ((List.range w).map fun k =>
          mask_column canvas.font.height canvas.fg_color canvas.bg_color
            (font_read_column canvas.font (text.getD (k / canvas.font.width) 0 % 256)
              (k % canvas.font.width))).flatten)) := by
  have hL : left_padding align w (text_width_loop canvas.font text 0) = some 0 := by
    apply left_padding_wide
    rw [text_width_loop_spec canvas.font text 0 (by decide), Nat.zero_add,
      Nat.mod_eq_of_lt hfit]
    exact hn
  exact canvas_draw_text_truncated fuel canvas x y w align text hw hh hf1 hf2 hn hL

/-- C7: the claim fails on the code at a centred text of 43 characters of width 6
in a window of `w = 20` columns.  Its width of 258 pixels is at least `w`, so the
claim requires the first 20 glyph columns and no padding; the 8-bit `text_width`
holds 258 mod 256 = 2, the fit test `text_width < w` succeeds, and the code streams
9 columns of background (72 pixels) before the first glyph column. -/
theorem canvas_draw_text_truncation_overflow :
    20 ≤ long_text.length * sample_canvas.font.width ∧
      text_width_loop sample_canvas.font long_text 0 = 2 ∧
      left_padding align_t.ALIGN_CENTER 20 (text_width_loop sample_canvas.font long_text 0) =
        some 9 ∧
      (canvas_draw_text 21 sample_canvas 0 0 20 align_t.ALIGN_CENTER long_text).log.map
          (List.take 73) =
        some (DisplayOp.set_window 0 0 20 8 :: List.replicate 72 (DisplayOp.write_pixel 0)) ∧
      (canvas_draw_text 21 sample_canvas 0 0 20 align_t.ALIGN_CENTER long_text).log ≠
        some (sample_canvas.log ++ DisplayOp.set_window 0 0 20 8 ::
          ((List.range 20).map fun k =>
            mask_column 8 65535 0
              (font_read_column sample_font (long_text.getD (k / 6) 0 % 256) (k % 6))).flatten) := by
  decide

/-- Counterexample to C8: with an alignment value outside the three enumerators
and a two-character text (12 pixels) in a window of 10 columns, `canvas_draw_text`
does not call `panic`; it returns after drawing the first 10 glyph columns. -/
theorem canvas_draw_text_invalid_align_counterexample :
    (canvas_draw_text 11 sample_canvas 0 0 10 (align_t.invalid 7) [65, 66]).is_panic = false ∧
      (canvas_draw_text 11 sample_canvas 0 0 10 (align_t.invalid 7) [65, 66]).is_return = true ∧
      (canvas_draw_text 11 sample_canvas 0 0 10 (align_t.invalid 7) [65, 66]).log =
        some (DisplayOp.set_window 0 0 10 8 :: text_columns sample_font 65535 0 [65, 66] 10) := by
  decide

/-- C8, amended: for an alignment value outside LEFT, CENTER and RIGHT,
`canvas_draw_text` ends in `panic` when the 8-bit text width
`(character_count * glyph_width) mod 256` is less than `w`, having made only the
`set_window` call; when that width is at least `w` the alignment is not examined
and the call returns after drawing the first `w` glyph columns of the text. -/
theorem canvas_draw_text_invalid_align (fuel : Nat) (canvas : canvas_t) (x y w v : Nat)
    (text : List Nat) (hw : w < 256) (hh : canvas.font.height < 256)
    (hf1 : w < fuel) (hf2 : canvas.font.height < fuel) :
    canvas_draw_text fuel canvas x y w (align_t.invalid v) text =
      if (text.length * canvas.font.width) % 256 < w then
        Outcome.panicked (canvas.emit [DisplayOp.set_window x y w canvas.font.height])
      else
        Outcome.returned (canvas.emit (DisplayOp.set_window x y w canvas.font.height ::
          text_columns canvas.font canvas.fg_color canvas.bg_color text w)) := by
  have htw : text_width_loop canvas.font text 0 = (text.length * canvas.font.width) % 256 := by
    rw [text_width_loop_spec canvas.font text 0 (by decide), Nat.zero_add]
  by_cases hlt : (text.length * canvas.font.width) % 256 < w
  · rw [if_pos hlt]
    apply canvas_draw_text_panic
    rw [htw]
    exact left_padding_invalid v w _ hlt
  · rw [if_neg hlt]
    have hmod : (text.length * canvas.font.width) % 256 ≤ text.length * canvas.font.width :=
      Nat.mod_le _ _
    apply canvas_draw_text_truncated fuel canvas x y w _ text hw hh hf1 hf2 (by omega)
    rw [htw]
    exact left_padding_wide _ w _ (by omega)

/-- Witness of C8, amended: a two-character text (12 pixels) in a window of 20
columns with an invalid alignment ends in `panic` after the `set_window`. -/
theorem canvas_draw_text_invalid_align_witness :
    canvas_draw_text 21 sample_canvas 0 0 20 (align_t.invalid 7) [65, 66] =
      Outcome.panicked (sample_canvas.emit [DisplayOp.set_window 0 0 20 8]) :=
  canvas_draw_text_invalid_align 21 sample_canvas 0 0 20 7 [65, 66] (by decide) (by decide)
    (by decide) (by decide)

theorem mask_column_testBit (height fg_color bg_color m : Nat) :
    mask_column height fg_color bg_color m =
      (List.range height).map fun i =>
        DisplayOp.write_pixel (if m.testBit i then fg_color else bg_color) := by
  unfold mask_column
  apply List.map_congr_left
  intro i _
  simp [Nat.testBit_to_div_mod]

theorem text_columns_testBit (font : font_t) (fg_color bg_color : Nat) (text : List Nat)
    (n : Nat) :
    text_columns font fg_color bg_color text n =
      ((List.range n).map fun k =>
        (List.range font.height).map fun i =>
          DisplayOp.write_pixel
            (if (font_read_column font (text.getD (k / font.width) 0 % 256)
                  (k % font.width)).testBit i
              then fg_color else bg_color)).flatten := by
  unfold text_columns
  congr 1
  apply List.map_congr_left
  intro k _
  rw [text_column, glyph_column, mask_column_testBit]

/-- C9: in the trace of `canvas_draw_text`, between the leading and the trailing
background columns, glyph column `k` of the text consists of `font.height` pixel
writes in row order 0, 1, ..., height - 1; with `m` the mask
`font_read_column (text[k / width], k mod width)`, the pixel of row `i` is the
foreground colour when bit `i` of `m` is set and the background colour otherwise,
which for every row `i >= 8` is the background colour. -/
theorem canvas_draw_text_glyph_pixels (fuel : Nat) (canvas : canvas_t) (x y w : Nat)
    (align : align_t) (text : List Nat) (hw : w < 256) (hh : canvas.font.height < 256)
    (hf1 : w < fuel) (hf2 : canvas.font.height < fuel)
    (hal : align = align_t.ALIGN_LEFT ∨ align = align_t.ALIGN_CENTER ∨
      align = align_t.ALIGN_RIGHT) :
    (∃ L, left_padding align w ((text.length * canvas.font.width) % 256) = some L ∧
      canvas_draw_text fuel canvas x y w align text =
        Outcome.returned (canvas.emit (DisplayOp.set_window x y w canvas.font.height ::
          (bg_columns L canvas.font.height canvas.bg_color ++
            ((List.range (min (text.length * canvas.font.width) (w - L))).map fun k =>
              (List.range canvas.font.height).map fun i =>
                DisplayOp.write_pixel
                  (if (font_read_column canvas.font
                        (text.getD (k / canvas.font.width) 0 % 256)
                        (k % canvas.font.width)).testBit i
                    then canvas.fg_color else canvas.bg_color)).flatten ++
            bg_columns (w - L - min (text.length * canvas.font.width) (w - L))
              canvas.font.height canvas.bg_color)))) ∧
      ∀ ch col i : Nat, 8 ≤ i →
        (if (font_read_column canvas.font ch col).testBit i
          then canvas.fg_color else canvas.bg_color) = canvas.bg_color := by
  constructor
  · have htw : text_width_loop canvas.font text 0 = (text.length * canvas.font.width) % 256 := by
      rw [text_width_loop_spec canvas.font text 0 (by decide), Nat.zero_add]
    obtain ⟨L, hL, hLw⟩ :=
      left_padding_some align w (text_width_loop canvas.font text 0) hw hal
    refine ⟨L, by rw [← htw]; exact hL, ?_⟩
    rw [canvas_draw_text_spec fuel canvas x y w align text L hw hh hf1 hf2 hL hLw]
    rw [text_columns_testBit]
  · intro ch col i hi
    have hlt : font_read_column canvas.font ch col < 2 ^ i := by
      have h8 : font_read_column canvas.font ch col < 256 := Nat.mod_lt _ (by decide)
      have hpow : 2 ^ 8 ≤ 2 ^ i := Nat.pow_le_pow_right (by decide) hi
      omega
    rw [Nat.testBit_lt_two_pow hlt]
    rfl

/-- Witness of C9: the centred two-character text in a window of 20 columns. -/
theorem canvas_draw_text_glyph_pixels_witness :
    (∃ L, left_padding align_t.ALIGN_CENTER 20 (([65, 66].length * sample_canvas.font.width) % 256)
        = some L ∧
      canvas_draw_text 21 sample_canvas 0 0 20 align_t.ALIGN_CENTER [65, 66] =
        Outcome.returned (sample_canvas.emit
          (DisplayOp.set_window 0 0 20 sample_canvas.font.height ::
          (bg_columns L sample_canvas.font.height sample_canvas.bg_color ++
            ((List.range (min ([65, 66].length * sample_canvas.font.width) (20 - L))).map fun k =>
              (List.range sample_canvas.font.height).map fun i =>
                DisplayOp.write_pixel
                  (if (font_read_column sample_canvas.font
                        ([65, 66].getD (k / sample_canvas.font.width) 0 % 256)
                        (k % sample_canvas.font.width)).testBit i
                    then sample_canvas.fg_color else sample_canvas.bg_color)).flatten ++
            bg_columns (20 - L - min ([65, 66].length * sample_canvas.font.width) (20 - L))
              sample_canvas.font.height sample_canvas.bg_color)))) ∧
      ∀ ch col i : Nat, 8 ≤ i →
        (if (font_read_column sample_canvas.font ch col).testBit i
          then sample_canvas.fg_color else sample_canvas.bg_color) = sample_canvas.bg_color :=
  canvas_draw_text_glyph_pixels 21 sample_canvas 0 0 20 align_t.ALIGN_CENTER [65, 66]
    (by decide) (by decide) (by decide) (by decide) (Or.inr (Or.inl rfl))

/-- C10: `canvas_draw_hline` does not clamp.  For all 8-bit `x`, `y` and thickness
`t`, the window origin is `(x - t / 2) mod 256`, `(y - t / 2) mod 256` (written
`(x + 256 - t / 2) % 256` in natural numbers), also when `x < t / 2` or
`y < t / 2`; the extents are `(w + t + 1) mod 256` and
`(t + 1) mod 256`, and as many pixels of the foreground colour follow as the
window holds. -/
theorem canvas_draw_hline_wraps (fuel : Nat) (canvas : canvas_t) (x y w : Nat)
    (hx : x < 256) (hy : y < 256) (ht : canvas.thickness < 256)
    (hfuel : ((w + canvas.thickness + 1) % 256) * ((canvas.thickness + 1) % 256) < fuel) :
    canvas_draw_hline fuel canvas x y w =
      some (canvas.emit (DisplayOp.set_window ((x + 256 - canvas.thickness / 2) % 256)
          ((y + 256 - canvas.thickness / 2) % 256) ((w + canvas.thickness + 1) % 256)
          ((canvas.thickness + 1) % 256) ::
        List.replicate (((w + canvas.thickness + 1) % 256) * ((canvas.thickness + 1) % 256))
          (DisplayOp.write_pixel canvas.fg_color))) := by
  rw [canvas_draw_hline_spec fuel canvas x y w hx hy ht]
  exact canvas_fill_rectangle_spec fuel canvas _ _ _ _ _ (Nat.mod_lt _ (by decide))
    (Nat.mod_lt _ (by decide)) hfuel

/-- Witness of C10: `canvas_draw_hline 0 0 10` with thickness 4 issues
`set_window 254 254 15 5` followed by exactly 75 writes of the foreground
colour. -/
theorem canvas_draw_hline_wraps_witness :
    canvas_draw_hline 76 even_canvas 0 0 10 =
      some (even_canvas.emit (DisplayOp.set_window 254 254 15 5 ::
        List.replicate 75 (DisplayOp.write_pixel even_canvas.fg_color))) :=
  canvas_draw_hline_wraps 76 even_canvas 0 0 10 (by decide) (by decide) (by decide)
    (by decide)

/-- C11: on a display whose extents `W = display_get_width` and
`H = display_get_height` are 8-bit values, `canvas_clear color` is the call
`canvas_fill_rectangle 0 0 W H color`: it returns, with one `set_window 0 0 W H`
followed by `W * H` writes of `color`. -/
theorem canvas_clear_trace (fuel : Nat) (canvas : canvas_t) (color : Nat)
    (hW : display_get_width canvas.display < 256)
    (hH : display_get_height canvas.display < 256)
    (hfuel : display_get_width canvas.display * display_get_height canvas.display < fuel) :
    canvas_clear fuel canvas color =
        canvas_fill_rectangle fuel canvas 0 0 (display_get_width canvas.display)
          (display_get_height canvas.display) color ∧
      canvas_clear fuel canvas color =
        some (canvas.emit (DisplayOp.set_window 0 0 (display_get_width canvas.display)
            (display_get_height canvas.display) ::
          List.replicate (display_get_width canvas.display * display_get_height canvas.display)
            (DisplayOp.write_pixel color))) := by
  have hcall : canvas_clear fuel canvas color =
      canvas_fill_rectangle fuel canvas 0 0 (display_get_width canvas.display)
        (display_get_height canvas.display) color := by
    unfold canvas_clear
    simp only [Nat.mod_eq_of_lt hW, Nat.mod_eq_of_lt hH]
  refine ⟨hcall, ?_⟩
  rw [hcall]
  exact canvas_fill_rectangle_spec fuel canvas 0 0 _ _ color hW hH hfuel

/-- Witness of C11: a display of 176 by 220 pixels. -/
theorem canvas_clear_trace_witness :
    canvas_clear 38721 sample_canvas 7 =
        canvas_fill_rectangle 38721 sample_canvas 0 0 176 220 7 ∧
      canvas_clear 38721 sample_canvas 7 =
        some (sample_canvas.emit (DisplayOp.set_window 0 0 176 220 ::
          List.replicate (176 * 220) (DisplayOp.write_pixel 7))) :=
  canvas_clear_trace 38721 sample_canvas 7 (by decide) (by decide) (by decide)

/-- C12: after `canvas_init canvas display font` every field is defined, whatever
the canvas record held before: `display` and `font` are the ones given,
`fg_color` is the RGB565 value of `0xFFFFFF`, which is `0xFFFF`, `bg_color` is the
RGB565 value of `0x000000`, which is `0x0000`, and `thickness` is 1. -/
theorem canvas_init_state (canvas : canvas_t) (display : display_t) (font : font_t) :
    canvas_init canvas display font =
        { display := display, font := font, fg_color := 0xFFFF, bg_color := 0x0000,
          thickness := 1 } ∧
      (canvas_init canvas display font).fg_color = RGB888_TO_RGB565 0xFFFFFF ∧
      (canvas_init canvas display font).bg_color = RGB888_TO_RGB565 0x000000 ∧
      RGB888_TO_RGB565 0xFFFFFF = 0xFFFF ∧ RGB888_TO_RGB565 0x000000 = 0x0000 := by
  have hwhite : RGB888_TO_RGB565 0xFFFFFF = 0xFFFF := by decide
  have hblack : RGB888_TO_RGB565 0x000000 = 0x0000 := by decide
  refine ⟨?_, rfl, rfl, hwhite, hblack⟩
  unfold canvas_init
  rw [hwhite, hblack]

/-- C13: each of `canvas_set_font`, `canvas_set_fg_color`, `canvas_set_bg_color`
and `canvas_set_thickness` sets its own field to the given value, whatever the
value, and leaves the other four fields as they were; the display, and so the log
of the calls made on it, is unchanged. -/
theorem canvas_setters_frame (canvas : canvas_t) (font : font_t) (value : Nat) :
    ((canvas_set_font canvas font).font = font ∧
      (canvas_set_font canvas font).display = canvas.display ∧
      (canvas_set_font canvas font).fg_color = canvas.fg_color ∧
      (canvas_set_font canvas font).bg_color = canvas.bg_color ∧
      (canvas_set_font canvas font).thickness = canvas.thickness ∧
      (canvas_set_font canvas font).display.log = canvas.display.log) ∧
    ((canvas_set_fg_color canvas value).fg_color = value ∧
      (canvas_set_fg_color canvas value).display = canvas.display ∧
      (canvas_set_fg_color canvas value).font = canvas.font ∧
      (canvas_set_fg_color canvas value).bg_color = canvas.bg_color ∧
      (canvas_set_fg_color canvas value).thickness = canvas.thickness ∧
      (canvas_set_fg_color canvas value).display.log = canvas.display.log) ∧
    ((canvas_set_bg_color canvas value).bg_color = value ∧
      (canvas_set_bg_color canvas value).display = canvas.display ∧
      (canvas_set_bg_color canvas value).font = canvas.font ∧
      (canvas_set_bg_color canvas value).fg_color = canvas.fg_color ∧
      (canvas_set_bg_color canvas value).thickness = canvas.thickness ∧
      (canvas_set_bg_color canvas value).display.log = canvas.display.log) ∧
    ((canvas_set_thickness canvas value).thickness = value ∧
      (canvas_set_thickness canvas value).display = canvas.display ∧
      (canvas_set_thickness canvas value).font = canvas.font ∧
      (canvas_set_thickness canvas value).fg_color = canvas.fg_color ∧
      (canvas_set_thickness canvas value).bg_color = canvas.bg_color ∧
      (canvas_set_thickness canvas value).display.log = canvas.display.log) :=
  ⟨⟨rfl, rfl, rfl, rfl, rfl, rfl⟩, ⟨rfl, rfl, rfl, rfl, rfl, rfl⟩,
    ⟨rfl, rfl, rfl, rfl, rfl, rfl⟩, ⟨rfl, rfl, rfl, rfl, rfl, rfl⟩⟩

/-- C14: `canvas_set_fg_color` is idempotent: setting the colour `c` twice gives
the canvas that setting it once gives, and every drawing operation that follows
(hline, vline, text) has the same result, and so the same display trace, in both
cases. -/
theorem canvas_set_fg_color_idempotent (canvas : canvas_t) (c : Nat) :
    canvas_set_fg_color (canvas_set_fg_color canvas c) c = canvas_set_fg_color canvas c ∧
      (∀ fuel x y w : Nat,
        canvas_draw_hline fuel (canvas_set_fg_color (canvas_set_fg_color canvas c) c) x y w =
          canvas_draw_hline fuel (canvas_set_fg_color canvas c) x y w) ∧
      (∀ fuel x y h : Nat,
        canvas_draw_vline fuel (canvas_set_fg_color (canvas_set_fg_color canvas c) c) x y h =
          canvas_draw_vline fuel (canvas_set_fg_color canvas c) x y h) ∧
      (∀ (fuel x y w : Nat) (align : align_t) (text : List Nat),
        canvas_draw_text fuel (canvas_set_fg_color (canvas_set_fg_color canvas c) c)
            x y w align text =
          canvas_draw_text fuel (canvas_set_fg_color canvas c) x y w align text) := by
  have hstate : canvas_set_fg_color (canvas_set_fg_color canvas c) c =
      canvas_set_fg_color canvas c := rfl
  refine ⟨hstate, ?_, ?_, ?_⟩
  · intro fuel x y w
    rw [hstate]
  · intro fuel x y h
    rw [hstate]
  · intro fuel x y w align text
    rw [hstate]

theorem bg_columns_eq_replicate (n height bg_color : Nat) :
    bg_columns n height bg_color =
      List.replicate (n * height) (DisplayOp.write_pixel bg_color) := by
  induction n with
  | zero => simp [bg_columns]
  | succ n ih =>
    rw [bg_columns_succ, ih, bg_column, List.append_replicate_replicate, Nat.succ_mul,
      Nat.add_comm]

theorem text_columns_eq (font : font_t) (fg_color bg_color : Nat) (text : List Nat) (n : Nat) :
    text_columns font fg_color bg_color text n =
      ((List.range n).map fun k =>
        mask_column font.height fg_color bg_color
          (font_read_column font (text.getD (k / font.width) 0 % 256) (k % font.width))).flatten :=
  rfl

theorem left_padding_text_padding (align : align_t) (w n : Nat) (hw : w < 256)
    (hal : align = align_t.ALIGN_LEFT ∨ align = align_t.ALIGN_CENTER ∨
      align = align_t.ALIGN_RIGHT) :
    left_padding align w (n % 256) = some (text_padding align w n) ∧
      text_padding align w n ≤ w := by
  unfold text_padding
  by_cases hge : w ≤ n % 256
  · rw [if_pos hge]
    exact ⟨left_padding_wide align w _ hge, Nat.zero_le _⟩
  · rw [if_neg hge]
    obtain ⟨h1, h2⟩ := left_padding_narrow align w (n % 256) hw (by omega) hal
    exact ⟨h1, by omega⟩

/-- C15: for every valid alignment `canvas_draw_text` returns and the calls it has
made are, in this order: `set_window x y w font.height`; `L` columns of background;
the first `G` glyph columns of the text; `w - L - G` columns of background; each
column being `font.height` writes.  Here `n = character_count * glyph_width`,
`tw8 = n mod 256`, `L` is 0 when `tw8 >= w` and otherwise 0, `(w - tw8) / 2` or
`w - tw8` for LEFT, CENTER or RIGHT, and `G = min (w - L) n`. -/
theorem canvas_draw_text_trace (fuel : Nat) (canvas : canvas_t) (x y w : Nat)
    (align : align_t) (text : List Nat) (hw : w < 256) (hh : canvas.font.height < 256)
    (hf1 : w < fuel) (hf2 : canvas.font.height < fuel)
    (hal : align = align_t.ALIGN_LEFT ∨ align = align_t.ALIGN_CENTER ∨
      align = align_t.ALIGN_RIGHT) :
    canvas_draw_text fuel canvas x y w align text =
      Outcome.returned (canvas.emit (DisplayOp.set_window x y w canvas.font.height ::
        (List.replicate (text_padding align w (text.length * canvas.font.width) *
              canvas.font.height) (DisplayOp.write_pixel canvas.bg_color) ++
          ((List.range (min (w - text_padding align w (text.length * canvas.font.width))
              (text.length * canvas.font.width))).map fun k =>
            mask_column canvas.font.height canvas.fg_color canvas.bg_color
              (font_read_column canvas.font (text.getD (k / canvas.font.width) 0 % 256)
                (k % canvas.font.width))).flatten ++
          List.replicate ((w - text_padding align w (text.length * canvas.font.width) -
              min (w - text_padding align w (text.length * canvas.font.width))
                (text.length * canvas.font.width)) * canvas.font.height)
            (DisplayOp.write_pixel canvas.bg_color)))) := by
  have htw : text_width_loop canvas.font text 0 = (text.length * canvas.font.width) % 256 := by
    rw [text_width_loop_spec canvas.font text 0 (by decide), Nat.zero_add]
  obtain ⟨hL, hLw⟩ := left_padding_text_padding align w (text.length * canvas.font.width) hw hal
  rw [← htw] at hL
  rw [canvas_draw_text_spec fuel canvas x y w align text _ hw hh hf1 hf2 hL hLw,
    bg_columns_eq_replicate, bg_columns_eq_replicate, text_columns_eq,
    Nat.min_comm (text.length * canvas.font.width)]

/-- Witness of C15: a centred text of 43 characters of width 6 in a window of 20
columns; `n = 258`, `tw8 = 2`, `L = 9` and `G = 11`. -/
theorem canvas_draw_text_trace_witness :
    canvas_draw_text 21 sample_canvas 0 0 20 align_t.ALIGN_CENTER long_text =
      Outcome.returned (sample_canvas.emit (DisplayOp.set_window 0 0 20 8 ::
        (List.replicate (9 * 8) (DisplayOp.write_pixel 0) ++
          ((List.range 11).map fun k =>
            mask_column 8 65535 0
              (font_read_column sample_font (long_text.getD (k / 6) 0 % 256) (k % 6))).flatten ++
          List.replicate (0 * 8) (DisplayOp.write_pixel 0)))) :=
  canvas_draw_text_trace 21 sample_canvas 0 0 20 align_t.ALIGN_CENTER long_text
    (by decide) (by decide) (by decide) (by decide) (Or.inr (Or.inl rfl))

/-- C16: for a text of width `tw = character_count * glyph_width < w`, CENTER
alignment draws `L = (w - tw) / 2` leading and `R = w - L - tw` trailing columns of
background around the `tw` glyph columns, with `L <= R <= L + 1`; RIGHT alignment
draws `w - tw` leading columns and no trailing column, the last glyph column being
the last column of the window. -/
theorem canvas_draw_text_centred (fuel : Nat) (canvas : canvas_t) (x y w : Nat)
    (text : List Nat) (hw : w < 256) (hh : canvas.font.height < 256)
    (hf1 : w < fuel) (hf2 : canvas.font.height < fuel)
    (htw : text.length * canvas.font.width < w) :
    (canvas_draw_text fuel canvas x y w align_t.ALIGN_CENTER text =
        Outcome.returned (canvas.emit (DisplayOp.set_window x y w canvas.font.height ::
          (bg_columns ((w - text.length * canvas.font.width) / 2)
              canvas.font.height canvas.bg_color ++
            text_columns canvas.font canvas.fg_color canvas.bg_color text
              (text.length * canvas.font.width) ++
            bg_columns (w - (w - text.length * canvas.font.width) / 2 -
              text.length * canvas.font.width) canvas.font.height canvas.bg_color))) ∧
      (w - text.length * canvas.font.width) / 2 ≤
        w - (w - text.length * canvas.font.width) / 2 - text.length * canvas.font.width ∧
      w - (w - text.length * canvas.font.width) / 2 - text.length * canvas.font.width ≤
        (w - text.length * canvas.font.width) / 2 + 1) ∧
    canvas_draw_text fuel canvas x y w align_t.ALIGN_RIGHT text =
      Outcome.returned (canvas.emit (DisplayOp.set_window x y w canvas.font.height ::
        (bg_columns (w - text.length * canvas.font.width) canvas.font.height canvas.bg_color ++
          text_columns canvas.font canvas.fg_color canvas.bg_color text
            (text.length * canvas.font.width)))) := by
  have htext := text_width_small canvas.font text w hw htw
  have hG : ∀ L, L + text.length * canvas.font.width ≤ w →
      min (text.length * canvas.font.width) (w - L) = text.length * canvas.font.width := by
    intro L hL
    omega
  refine ⟨⟨?_, by omega, by omega⟩, ?_⟩
  · have hL := left_padding_center w (text.length * canvas.font.width) hw htw
    have hL' : left_padding align_t.ALIGN_CENTER w (text_width_loop canvas.font text 0) =
        some ((w - text.length * canvas.font.width) / 2) := by
      rw [htext]
      exact hL
    rw [canvas_draw_text_spec fuel canvas x y w _ text _ hw hh hf1 hf2 hL' (by omega),
      hG _ (by omega)]
  · have hL := left_padding_right w (text.length * canvas.font.width) hw htw
    have hL' : left_padding align_t.ALIGN_RIGHT w (text_width_loop canvas.font text 0) =
        some (w - text.length * canvas.font.width) := by
      rw [htext]
      exact hL
    rw [canvas_draw_text_spec fuel canvas x y w _ text _ hw hh hf1 hf2 hL' (by omega),
      hG _ (by omega)]
    have hz : w - (w - text.length * canvas.font.width) - text.length * canvas.font.width = 0 := by
      omega
    rw [hz]
    simp [bg_columns]

/-- Witness of C16: two characters of width 6 in a window of 21 columns; CENTER
pads 4 columns on the left and 5 on the right, RIGHT pads 9 on the left. -/
theorem canvas_draw_text_centred_witness :
    (canvas_draw_text 22 sample_canvas 0 0 21 align_t.ALIGN_CENTER [65, 66] =
        Outcome.returned (sample_canvas.emit (DisplayOp.set_window 0 0 21 8 ::
          (bg_columns 4 8 0 ++ text_columns sample_font 65535 0 [65, 66] 12 ++
            bg_columns 5 8 0))) ∧
      (21 - 12) / 2 ≤ 21 - (21 - 12) / 2 - 12 ∧ 21 - (21 - 12) / 2 - 12 ≤ (21 - 12) / 2 + 1) ∧
    canvas_draw_text 22 sample_canvas 0 0 21 align_t.ALIGN_RIGHT [65, 66] =
      Outcome.returned (sample_canvas.emit (DisplayOp.set_window 0 0 21 8 ::
        (bg_columns 9 8 0 ++ text_columns sample_font 65535 0 [65, 66] 12))) :=
  canvas_draw_text_centred 22 sample_canvas 0 0 21 [65, 66] (by decide) (by decide)
    (by decide) (by decide) (by decide)

/-- C17: the extents that `canvas_draw_hline` and `canvas_draw_vline` declare are
truncated to 8 bits: an hline of length `len` declares width
`(len + thickness + 1) mod 256` and height `(thickness + 1) mod 256`, a vline the
same two with width and height exchanged.  With thickness 255 both declare a window
of no pixel (`len` by 0, and 0 by `len`) and write no pixel, and an hline of length
250 with thickness 5 declares width 0 and writes no pixel. -/
theorem canvas_draw_line_extents (fuel : Nat) (canvas : canvas_t) (x y len : Nat)
    (hx : x < 256) (hy : y < 256) (hlen : len < 256) (ht : canvas.thickness < 256)
    (hfuel : ((len + canvas.thickness + 1) % 256) * ((canvas.thickness + 1) % 256) < fuel) :
    canvas_draw_hline fuel canvas x y len =
        some (canvas.emit (DisplayOp.set_window ((x + 256 - canvas.thickness / 2) % 256)
            ((y + 256 - canvas.thickness / 2) % 256) ((len + canvas.thickness + 1) % 256)
            ((canvas.thickness + 1) % 256) ::
          List.replicate
            (((len + canvas.thickness + 1) % 256) * ((canvas.thickness + 1) % 256))
            (DisplayOp.write_pixel canvas.fg_color))) ∧
      canvas_draw_vline fuel canvas x y len =
        some (canvas.emit (DisplayOp.set_window ((x + 256 - canvas.thickness / 2) % 256)
            ((y + 256 - canvas.thickness / 2) % 256) ((canvas.thickness + 1) % 256)
            ((len + canvas.thickness + 1) % 256) ::
          List.replicate
            (((canvas.thickness + 1) % 256) * ((len + canvas.thickness + 1) % 256))
            (DisplayOp.write_pixel canvas.fg_color))) ∧
      (canvas.thickness = 255 →
        canvas_draw_hline fuel canvas x y len =
            some (canvas.emit [DisplayOp.set_window ((x + 256 - 127) % 256)
              ((y + 256 - 127) % 256) len 0]) ∧
          canvas_draw_vline fuel canvas x y len =
            some (canvas.emit [DisplayOp.set_window ((x + 256 - 127) % 256)
              ((y + 256 - 127) % 256) 0 len])) ∧
      (canvas.thickness = 5 → len = 250 →
        canvas_draw_hline fuel canvas x y len =
          some (canvas.emit [DisplayOp.set_window ((x + 256 - 2) % 256)
            ((y + 256 - 2) % 256) 0 6])) := by
  have hh := canvas_draw_hline_spec fuel canvas x y len hx hy ht
  have hv := canvas_draw_vline_spec fuel canvas x y len hx hy ht
  have hfill := canvas_fill_rectangle_spec fuel canvas
    ((x + 256 - canvas.thickness / 2) % 256) ((y + 256 - canvas.thickness / 2) % 256)
    ((len + canvas.thickness + 1) % 256) ((canvas.thickness + 1) % 256) canvas.fg_color
    (Nat.mod_lt _ (by decide)) (Nat.mod_lt _ (by decide)) hfuel
  have hfill' := canvas_fill_rectangle_spec fuel canvas
    ((x + 256 - canvas.thickness / 2) % 256) ((y + 256 - canvas.thickness / 2) % 256)
    ((canvas.thickness + 1) % 256) ((len + canvas.thickness + 1) % 256) canvas.fg_color
    (Nat.mod_lt _ (by decide)) (Nat.mod_lt _ (by decide)) (by rw [Nat.mul_comm]; exact hfuel)
  rw [← hh] at hfill
  rw [← hv] at hfill'
  refine ⟨hfill, hfill', ?_, ?_⟩
  · intro h255
    rw [hfill, hfill', h255]
    have hw : (len + 255 + 1) % 256 = len := by omega
    rw [hw]
    refine ⟨rfl, ?_⟩
    have hz : (255 + 1) % 256 = 0 := by decide
    rw [rectangle_trace, hz, Nat.zero_mul]
    rfl
  · intro h5 h250
    rw [hfill, h5, h250]
    rfl

/-- Witness of C17: lines of length 10 with thickness 255 at `(3, 5)`, and an hline
of length 250 with thickness 5. -/
theorem canvas_draw_line_extents_witness :
    (canvas_draw_hline 1 widest_canvas 3 5 10 =
        some (widest_canvas.emit [DisplayOp.set_window 132 134 10 0]) ∧
      canvas_draw_vline 1 widest_canvas 3 5 10 =
        some (widest_canvas.emit [DisplayOp.set_window 132 134 0 10])) ∧
    canvas_draw_hline 1 odd_canvas 3 5 250 =
      some (odd_canvas.emit [DisplayOp.set_window 1 3 0 6]) :=
  ⟨(canvas_draw_line_extents 1 widest_canvas 3 5 10 (by decide) (by decide) (by decide)
      (by decide) (by decide)).2.2.1 rfl,
    (canvas_draw_line_extents 1 odd_canvas 3 5 250 (by decide) (by decide) (by decide)
      (by decide) (by decide)).2.2.2 rfl rfl⟩

/-! ## The PC simulation -/

theorem store_same (memory : Nat → Nat) (index value : Nat) :
    store memory index value index = value := by
  simp [store]

theorem store_other (memory : Nat → Nat) (index value j : Nat) (hne : j ≠ index) :
    store memory index value j = memory j := by
  simp [store, hne]

theorem sim_pixel_zero (palette : palette_t) (tft : tft_t) (m : Nat) :
    (if m &&& 1 ≠ 0 then to_sdl_color palette tft.fg_color
      else to_sdl_color palette tft.bg_color) = sim_pixel palette tft m 0 := by
  unfold sim_pixel
  rw [Nat.testBit_zero, Nat.and_one_is_mod]
  by_cases h : m % 2 = 1
  · have h0 : m % 2 ≠ 0 := by omega
    simp [h, h0]
  · have h0 : m % 2 = 0 := by omega
    simp [h0]

theorem sim_pixel_shift (palette : palette_t) (tft : tft_t) (m j : Nat) :
    sim_pixel palette tft (m >>> 1) j = sim_pixel palette tft m (j + 1) := by
  unfold sim_pixel
  rw [Nat.testBit_shiftRight, Nat.add_comm]

theorem char_rows_spec (palette : palette_t) (tft : tft_t) (i : Nat)
    (hh : tft.font.height ≤ 8) (hi : i < 6) :
    ∀ (fuel k m : Nat) (charPixels : Nat → Nat), k ≤ tft.font.height →
      tft.font.height - k < fuel →
      ∃ charPixels', char_rows palette tft i fuel k m charPixels = Access.ok charPixels' ∧
        (∀ j, j < i * 8 + k → charPixels' j = charPixels j) ∧
        ∀ k', k ≤ k' → k' < tft.font.height →
          charPixels' (i * 8 + k') = sim_pixel palette tft m (k' - k) := by
  intro fuel
  induction fuel with
  | zero => intro k m charPixels _ h; omega
  | succ fuel ih =>
    intro k m charPixels hk hf
    unfold char_rows
    by_cases hlt : k < tft.font.height
    · have hmod : (k + 1) % 256 = k + 1 := Nat.mod_eq_of_lt (by omega)
      have hidx : i * 8 + k < 6 * 8 := by omega
      rw [if_pos hlt, if_pos hidx]
      simp only
      rw [hmod, sim_pixel_zero]
      obtain ⟨cp, hrun, hframe, hval⟩ :=
        ih (k + 1) (m >>> 1) (store charPixels (i * 8 + k) (sim_pixel palette tft m 0))
          (by omega) (by omega)
      refine ⟨cp, hrun, ?_, ?_⟩
      · intro j hj
        rw [hframe j (by omega), store_other _ _ _ _ (by omega)]
      · intro k' hk1 hk2
        by_cases heq : k' = k
        · subst heq
          rw [hframe _ (by omega), store_same, Nat.sub_self]
        · rw [hval k' (by omega) hk2, sim_pixel_shift]
          congr 1
          omega
    · rw [if_neg hlt]
      refine ⟨charPixels, rfl, fun _ _ => rfl, ?_⟩
      intro k' hk1 hk2
      omega

theorem char_columns_spec (palette : palette_t) (tft : tft_t) (ch gas : Nat)
    (hw : tft.font.width ≤ 6) (hh : tft.font.height ≤ 8) (hgas : tft.font.height < gas) :
    ∀ (fuel i : Nat) (charPixels : Nat → Nat), i ≤ tft.font.width →
      tft.font.width - i < fuel →
      ∃ charPixels', char_columns palette tft ch gas fuel i charPixels = Access.ok charPixels' ∧
        (∀ j, j < i * 8 → charPixels' j = charPixels j) ∧
        ∀ i' k', i ≤ i' → i' < tft.font.width → k' < tft.font.height →
          charPixels' (i' * 8 + k') =
            sim_pixel palette tft (font_read_column tft.font (ch % 256) i') k' := by
  intro fuel
  induction fuel with
  | zero => intro i charPixels _ h; omega
  | succ fuel ih =>
    intro i charPixels hi hf
    unfold char_columns
    by_cases hlt : i < tft.font.width
    · have hmod : (i + 1) % 256 = i + 1 := Nat.mod_eq_of_lt (by omega)
      obtain ⟨cp1, hrun1, hframe1, hval1⟩ :=
        char_rows_spec palette tft i hh (by omega) gas 0
          (font_read_column tft.font (ch % 256) i) charPixels (Nat.zero_le _) (by omega)
      rw [if_pos hlt]
      simp only
      rw [hrun1]
      simp only
      rw [hmod]
      obtain ⟨cp, hrun, hframe, hval⟩ := ih (i + 1) cp1 (by omega) (by omega)
      refine ⟨cp, hrun, ?_, ?_⟩
      · intro j hj
        rw [hframe j (by omega), hframe1 j (by omega)]
      · intro i' k' hi1 hi2 hk
        by_cases heq : i' = i
        · subst heq
          rw [hframe _ (by omega), hval1 k' (Nat.zero_le _) hk, Nat.sub_zero]
        · exact hval i' k' (by omega) hi2 hk
    · rw [if_neg hlt]
      refine ⟨charPixels, rfl, fun _ _ => rfl, ?_⟩
      intro i' k' hi1 hi2 _
      omega


theorem blit_row_spec (charPixels : Nat → Nat) (x0 y0 x1 y : Nat)
    (hx1 : x1 ≤ x0 + 6) (hy0 : y0 ≤ y) (hy : y < y0 + 8)
    (hsurf : x0 < x1 → x1 ≤ WINDOW_WIDTH ∧ y < WINDOW_HEIGHT) :
    ∀ (fuel x : Nat) (pixels : Nat → Nat), x0 ≤ x → x ≤ x1 → x1 - x < fuel →
      ∃ pixels', blit_row charPixels x0 y0 x1 y fuel x pixels = Access.ok pixels' ∧
        (∀ o, o < y * WINDOW_WIDTH + x → pixels' o = pixels o) ∧
        ∀ xx, x ≤ x0 + xx → x0 + xx < x1 →
          pixels' (y * WINDOW_WIDTH + (x0 + xx)) = charPixels (xx * 8 + (y - y0)) := by
  intro fuel
  induction fuel with
  | zero => intro x pixels _ _ h; omega
  | succ fuel ih =>
    intro x pixels hx0 hxle hf
    unfold blit_row
    by_cases hlt : x < x1
    · have hidx : (x - x0) * 8 + (y - y0) < 6 * 8 := by omega
      have hoff : (y0 + (y - y0)) * WINDOW_WIDTH + x0 + (x - x0) = y * WINDOW_WIDTH + x := by
        have h1 : y0 + (y - y0) = y := by omega
        rw [h1]
        omega
      have hin : y * WINDOW_WIDTH + x < WINDOW_WIDTH * WINDOW_HEIGHT := by
        have hs := hsurf (by omega)
        unfold WINDOW_WIDTH WINDOW_HEIGHT at *
        omega
      rw [if_pos hlt]
      simp only
      rw [if_pos hidx, hoff, if_pos hin]
      obtain ⟨p, hrun, hframe, hval⟩ :=
        ih (x + 1) (store pixels (y * WINDOW_WIDTH + x) (charPixels ((x - x0) * 8 + (y - y0))))
          (by omega) (by omega) (by omega)
      refine ⟨p, hrun, ?_, ?_⟩
      · intro o ho
        rw [hframe o (by omega), store_other _ _ _ _ (by omega)]
      · intro xx hxx1 hxx2
        by_cases heq : x0 + xx = x
        · have hxx : xx = x - x0 := by omega
          rw [heq, hframe _ (by omega), store_same, hxx]
        · exact hval xx (by omega) hxx2
    · rw [if_neg hlt]
      refine ⟨pixels, rfl, fun _ _ => rfl, ?_⟩
      intro xx hxx1 hxx2
      omega

theorem blit_spec (charPixels : Nat → Nat) (x0 y0 x1 y1 gas : Nat)
    (hx0 : x0 ≤ x1) (hx1 : x1 ≤ x0 + 6) (hy1 : y1 ≤ y0 + 8) (hgas : x1 - x0 < gas)
    (hsurf : x0 < x1 → y0 < y1 → x1 ≤ WINDOW_WIDTH ∧ y1 ≤ WINDOW_HEIGHT) :
    ∀ (fuel y : Nat) (pixels : Nat → Nat), y0 ≤ y → y ≤ y1 → y1 - y < fuel →
      ∃ pixels', blit charPixels x0 y0 x1 y1 gas fuel y pixels = Access.ok pixels' ∧
        (∀ o, o < y * WINDOW_WIDTH + x0 → pixels' o = pixels o) ∧
        ∀ xx yy, x0 + xx < x1 → y ≤ y0 + yy → y0 + yy < y1 →
          pixels' ((y0 + yy) * WINDOW_WIDTH + (x0 + xx)) = charPixels (xx * 8 + yy) := by
  intro fuel
  induction fuel with
  | zero => intro y pixels _ _ h; omega
  | succ fuel ih =>
    intro y pixels hy0 hyle hf
    unfold blit
    by_cases hlt : y < y1
    · obtain ⟨p1, hrun1, hframe1, hval1⟩ :=
        blit_row_spec charPixels x0 y0 x1 y hx1 hy0 (by omega)
          (fun hpos => by
            have hs := hsurf hpos (by omega)
            exact ⟨hs.1, by omega⟩)
          gas x0 pixels (Nat.le_refl _) hx0 hgas
      rw [if_pos hlt, hrun1]
      simp only
      obtain ⟨p, hrun, hframe, hval⟩ := ih (y + 1) p1 (by omega) (by omega) (by omega)
      have hstride : (y + 1) * WINDOW_WIDTH = y * WINDOW_WIDTH + 640 := by
        unfold WINDOW_WIDTH
        omega
      refine ⟨p, hrun, ?_, ?_⟩
      · intro o ho
        rw [hframe o (by omega), hframe1 o ho]
      · intro xx yy hxx hyy1 hyy2
        by_cases heq : y0 + yy = y
        · have hyy : yy = y - y0 := by omega
          rw [heq, hframe _ (by omega), hval1 xx (by omega) hxx, hyy]
        · exact hval xx yy hxx (by omega) hyy2
    · rw [if_neg hlt]
      refine ⟨pixels, rfl, fun _ _ => rfl, ?_⟩
      intro xx yy _ hyy1 hyy2
      omega

theorem blit_row_safe (charPixels : Nat → Nat) (x0 y0 x1 y : Nat)
    (hx1 : x1 ≤ x0 + 6) (hy0 : y0 ≤ y) (hy : y < y0 + 8) :
    ∀ (fuel x : Nat) (pixels : Nat → Nat), x0 ≤ x → x1 - x < fuel →
      (∃ pixels', blit_row charPixels x0 y0 x1 y fuel x pixels = Access.ok pixels') ∨
        blit_row charPixels x0 y0 x1 y fuel x pixels = Access.surface_overrun := by
  intro fuel
  induction fuel with
  | zero => intro x pixels _ h; omega
  | succ fuel ih =>
    intro x pixels hx0 hf
    unfold blit_row
    by_cases hlt : x < x1
    · have hidx : (x - x0) * 8 + (y - y0) < 6 * 8 := by omega
      rw [if_pos hlt]
      simp only
      rw [if_pos hidx]
      by_cases hin : (y0 + (y - y0)) * WINDOW_WIDTH + x0 + (x - x0) <
          WINDOW_WIDTH * WINDOW_HEIGHT
      · rw [if_pos hin]
        exact ih (x + 1) _ (by omega) (by omega)
      · rw [if_neg hin]
        exact Or.inr rfl
    · rw [if_neg hlt]
      exact Or.inl ⟨pixels, rfl⟩

theorem blit_safe (charPixels : Nat → Nat) (x0 y0 x1 y1 gas : Nat)
    (hx1 : x1 ≤ x0 + 6) (hy1 : y1 ≤ y0 + 8) (hgas : x1 - x0 < gas) :
    ∀ (fuel y : Nat) (pixels : Nat → Nat), y0 ≤ y → y1 - y < fuel →
      (∃ pixels', blit charPixels x0 y0 x1 y1 gas fuel y pixels = Access.ok pixels') ∨
        blit charPixels x0 y0 x1 y1 gas fuel y pixels = Access.surface_overrun := by
  intro fuel
  induction fuel with
  | zero => intro y pixels _ h; omega
  | succ fuel ih =>
    intro y pixels hy0 hf
    unfold blit
    by_cases hlt : y < y1
    · rw [if_pos hlt]
      rcases blit_row_safe charPixels x0 y0 x1 y hx1 hy0 (by omega) gas x0 pixels
        (Nat.le_refl _) hgas with ⟨p1, hrun1⟩ | hrun1
      · rw [hrun1]
        exact ih (y + 1) p1 (by omega) (by omega)
      · rw [hrun1]
        exact Or.inr rfl
    · rw [if_neg hlt]
      exact Or.inl ⟨pixels, rfl⟩

theorem flatten_uniform_length {α : Type} (f : Nat → List α) (h : Nat)
    (hlen : ∀ k, (f k).length = h) :
    ∀ n, ((List.range n).map f).flatten.length = n * h := by
  intro n
  induction n with
  | zero => simp
  | succ n ih =>
    rw [List.range_succ, List.map_append, List.flatten_append, List.length_append, ih]
    simp [hlen, Nat.succ_mul]

theorem flatten_uniform_index {α : Type} (f : Nat → List α) (h : Nat)
    (hlen : ∀ k, (f k).length = h) :
    ∀ n k i, k < n → i < h → ((List.range n).map f).flatten[k * h + i]? = (f k)[i]? := by
  intro n
  induction n with
  | zero => intro k i hk _; omega
  | succ n ih =>
    intro k i hk hi
    rw [List.range_succ, List.map_append, List.flatten_append]
    by_cases hkn : k < n
    · have hle : (k + 1) * h ≤ n * h := Nat.mul_le_mul_right h hkn
      rw [Nat.succ_mul] at hle
      rw [List.getElem?_append_left (by
        rw [flatten_uniform_length f h hlen n]
        omega)]
      exact ih k i hkn hi
    · have hkeq : k = n := by omega
      subst hkeq
      rw [List.getElem?_append_right (by
        rw [flatten_uniform_length f h hlen k]
        omega)]
      rw [flatten_uniform_length f h hlen k]
      have hsub : k * h + i - k * h = i := by omega
      rw [hsub]
      simp

theorem glyph_column_row (font : font_t) (fg_color bg_color ch col row : Nat)
    (hrow : row < font.height) :
    (glyph_column font fg_color bg_color ch col)[row]? =
      some (DisplayOp.write_pixel
        (if (font_read_column font (ch % 256) col).testBit row then fg_color else bg_color)) := by
  rw [glyph_column, mask_column_testBit, List.getElem?_map, List.getElem?_range hrow]
  rfl

theorem text_column_length (font : font_t) (fg_color bg_color : Nat) (text : List Nat)
    (k : Nat) : (text_column font fg_color bg_color text k).length = font.height := by
  simp [text_column, glyph_column, mask_column]

theorem single_char_pixel (font : font_t) (fg_color bg_color ch xx yy : Nat)
    (hxx : xx < font.width) (hyy : yy < font.height) :
    (text_columns font fg_color bg_color [ch] font.width)[xx * font.height + yy]? =
      some (DisplayOp.write_pixel
        (if (font_read_column font (ch % 256) xx).testBit yy then fg_color else bg_color)) := by
  unfold text_columns
  rw [flatten_uniform_index (text_column font fg_color bg_color [ch]) font.height
    (text_column_length font fg_color bg_color [ch]) font.width xx yy hxx hyy,
    text_column_head font fg_color bg_color ch [] xx hxx]
  exact glyph_column_row font fg_color bg_color ch xx yy hyy

theorem single_char_trace (fuel : Nat) (canvas : canvas_t) (x y ch : Nat)
    (hw : canvas.font.width < 256) (hh : canvas.font.height < 256)
    (hf1 : canvas.font.width < fuel) (hf2 : canvas.font.height < fuel) :
    canvas_draw_text fuel canvas x y canvas.font.width align_t.ALIGN_LEFT [ch] =
      Outcome.returned (canvas.emit
        (DisplayOp.set_window x y canvas.font.width canvas.font.height ::
          text_columns canvas.font canvas.fg_color canvas.bg_color [ch] canvas.font.width)) :=
  canvas_draw_text_truncated fuel canvas x y canvas.font.width align_t.ALIGN_LEFT [ch] hw hh
    hf1 hf2 (by simp) (left_padding_left _ _)

/-- Counterexample to C18: with the 6 by 8 font, `tft_draw_char` at cell `(0, 80)`
stores at word `640 * 640`, the first word past the surface of 640 by 640 pixels,
so no surface pixel at `(0, 640)` is set; and at cell `(107, 0)`, where
`x * width = 642`, the pixel of column 0 and row 0 of the glyph goes to word 642,
which is the surface pixel `(2, 1)` and not a pixel `(642, 0)`. -/
theorem tft_draw_char_pixels_counterexample :
    sample_tft.font.width ≤ 6 ∧ sample_tft.font.height ≤ 8 ∧
      (tft_draw_char sample_palette 9 sample_tft 0 80 65 (fun _ => 7)).is_surface_overrun =
        true ∧
      (tft_draw_char sample_palette 9 sample_tft 0 80 65 (fun _ => 7)).word
          ((80 * 8 + 0) * WINDOW_WIDTH + (0 * 6 + 0)) = none ∧
      WINDOW_WIDTH ≤ 107 * 6 + 0 ∧
      (tft_draw_char sample_palette 9 sample_tft 107 0 65 (fun _ => 7)).word
          (1 * WINDOW_WIDTH + 2) = some 0xFFFFFF := by
  decide

/-- C18, amended: for a font of width at most 6 and height at most 8 and 8-bit `x`
and `y`, `tft_draw_char` ends without an access to `charPixels` at an index of 48
or more.  When every pixel of the cell lies on the surface, that is
`x * width + xx < WINDOW_WIDTH` and `y * height + yy < WINDOW_HEIGHT` for all
`xx < width` and `yy < height`, the call finishes and the surface pixel at
`(x * width + xx, y * height + yy)` holds the SDL value of the foreground colour
when bit `yy` of `font_read_column (font, ch, xx)` is set and of the background
colour otherwise; that colour is the one which `canvas_draw_text`, drawing the
character with the same font and colours, writes as pixel `xx * height + yy` of
its window. -/
theorem tft_draw_char_pixels (palette : palette_t) (fuel : Nat) (tft : tft_t)
    (x y ch : Nat) (pixels : Nat → Nat) (display : display_t) (cx cy : Nat)
    (hw : tft.font.width ≤ 6) (hh : tft.font.height ≤ 8) (hx : x < 256) (hy : y < 256)
    (hfuel : 8 < fuel) :
    (tft_draw_char palette fuel tft x y ch pixels ≠ Access.array_overrun ∧
      tft_draw_char palette fuel tft x y ch pixels ≠ Access.out_of_fuel) ∧
    ((∀ xx yy, xx < tft.font.width → yy < tft.font.height →
        x * tft.font.width + xx < WINDOW_WIDTH ∧ y * tft.font.height + yy < WINDOW_HEIGHT) →
      ∃ pixels' ops,
        tft_draw_char palette fuel tft x y ch pixels = Access.ok pixels' ∧
        canvas_draw_text fuel (tft_canvas tft display) cx cy tft.font.width
            align_t.ALIGN_LEFT [ch] =
          Outcome.returned ((tft_canvas tft display).emit
            (DisplayOp.set_window cx cy tft.font.width tft.font.height :: ops)) ∧
        ∀ xx yy, xx < tft.font.width → yy < tft.font.height →
          pixels' ((y * tft.font.height + yy) * WINDOW_WIDTH + (x * tft.font.width + xx)) =
              to_sdl_color palette
                (if (font_read_column tft.font (ch % 256) xx).testBit yy
                  then tft.fg_color else tft.bg_color) ∧
            ops[xx * tft.font.height + yy]? =
              some (DisplayOp.write_pixel
                (if (font_read_column tft.font (ch % 256) xx).testBit yy
                  then tft.fg_color else tft.bg_color))) := by
  have hpx : x * tft.font.width ≤ 255 * 6 := Nat.mul_le_mul (by omega) hw
  have hpy : y * tft.font.height ≤ 255 * 8 := Nat.mul_le_mul (by omega) hh
  have hmx : (x * tft.font.width) % 65536 = x * tft.font.width := Nat.mod_eq_of_lt (by omega)
  have hmy : (y * tft.font.height) % 65536 = y * tft.font.height := Nat.mod_eq_of_lt (by omega)
  obtain ⟨cp, hrun1, _, hval1⟩ :=
    char_columns_spec palette tft ch fuel hw hh (by omega) fuel 0 (fun _ => 0)
      (Nat.zero_le _) (by omega)
  have hcall : tft_draw_char palette fuel tft x y ch pixels =
      blit cp (x * tft.font.width) (y * tft.font.height)
        (x * tft.font.width + tft.font.width) (y * tft.font.height + tft.font.height)
        fuel fuel (y * tft.font.height) pixels := by
    unfold tft_draw_char
    simp only [hmx, hmy, hrun1]
  constructor
  · rcases blit_safe cp (x * tft.font.width) (y * tft.font.height)
      (x * tft.font.width + tft.font.width) (y * tft.font.height + tft.font.height) fuel
      (by omega) (by omega) (by omega) fuel (y * tft.font.height) pixels
      (Nat.le_refl _) (by omega) with ⟨p, hrun⟩ | hrun
    · rw [hcall, hrun]
      exact ⟨fun h => Access.noConfusion h, fun h => Access.noConfusion h⟩
    · rw [hcall, hrun]
      exact ⟨fun h => Access.noConfusion h, fun h => Access.noConfusion h⟩
  · intro hsurf
    obtain ⟨p, hrun2, _, hval2⟩ :=
      blit_spec cp (x * tft.font.width) (y * tft.font.height)
        (x * tft.font.width + tft.font.width) (y * tft.font.height + tft.font.height) fuel
        (by omega) (by omega) (by omega) (by omega)
        (fun hxpos hypos => by
          have hs := hsurf (tft.font.width - 1) (tft.font.height - 1) (by omega) (by omega)
          omega)
        fuel (y * tft.font.height) pixels (Nat.le_refl _) (by omega) (by omega)
    refine ⟨p, text_columns tft.font tft.fg_color tft.bg_color [ch] tft.font.width,
      by rw [hcall]; exact hrun2, ?_, ?_⟩
    · exact single_char_trace fuel (tft_canvas tft display) cx cy ch
        (show tft.font.width < 256 by omega) (show tft.font.height < 256 by omega)
        (show tft.font.width < fuel by omega) (show tft.font.height < fuel by omega)
    · intro xx yy hxx hyy
      refine ⟨?_, single_char_pixel tft.font tft.fg_color tft.bg_color ch xx yy hxx hyy⟩
      rw [hval2 xx yy (by omega) (by omega) (by omega),
        hval1 xx yy (Nat.zero_le _) hxx hyy]
      rfl

/-- Witness of C18, amended: the character 65 in the sample font of 6 by 8 pixels,
at cell `(2, 3)` of the surface and at `(12, 24)` of the display. -/
theorem tft_draw_char_pixels_witness :
    ∃ pixels' ops,
      tft_draw_char sample_palette 9 sample_tft 2 3 65 (fun _ => 7) = Access.ok pixels' ∧
      canvas_draw_text 9 (tft_canvas sample_tft sample_display) 12 24 sample_tft.font.width
          align_t.ALIGN_LEFT [65] =
        Outcome.returned ((tft_canvas sample_tft sample_display).emit
          (DisplayOp.set_window 12 24 sample_tft.font.width sample_tft.font.height :: ops)) ∧
      ∀ xx yy, xx < sample_tft.font.width → yy < sample_tft.font.height →
        pixels' ((3 * sample_tft.font.height + yy) * WINDOW_WIDTH +
              (2 * sample_tft.font.width + xx)) =
            to_sdl_color sample_palette
              (if (font_read_column sample_tft.font (65 % 256) xx).testBit yy
                then sample_tft.fg_color else sample_tft.bg_color) ∧
          ops[xx * sample_tft.font.height + yy]? =
            some (DisplayOp.write_pixel
              (if (font_read_column sample_tft.font (65 % 256) xx).testBit yy
                then sample_tft.fg_color else sample_tft.bg_color)) :=
  (tft_draw_char_pixels sample_palette 9 sample_tft 2 3 65 (fun _ => 7) sample_display 12 24
    (by decide) (by decide) (by decide) (by decide) (by decide)).2
    (fun xx yy hxx hyy => by
      have h1 : xx < 6 := hxx
      have h2 : yy < 8 := hyy
      show 2 * 6 + xx < 640 ∧ 3 * 8 + yy < 640
      omega)
